import Mathlib

/-!
Shallow embedding of `package/MDAnalysis/coordinates/TRZ.py`: the TRZ
binary-trajectory decoder (class `TRZReader`) and its per-frame snapshot
container (class `Timestep`).

Modelling conventions:
* The byte stream is a `List Nat` (one entry per byte, values 0..255).
* Python floats (`struct` formats d and f) are modelled by `Int` via a fixed
  little-endian numeric decoding of their byte encodings; the code never
  branches on float arithmetic, it only stores decoded values and subtracts
  two of them, so any injective numeric reading of the bytes is adequate.
* Python exceptions are modelled by `Except PErr`; mutation of the reader is
  explicit state passing, and every operation returns the post-state even on
  failure (mirroring that Python exceptions do not roll back mutations).
* Attributes that some constructor branches of `Timestep.__init__` leave
  unset are modelled as `Option` fields (`none` = attribute absent;
  accessing an absent attribute raises, modelled by `PErr.attrError`).
-/

deriving instance DecidableEq for Except

namespace TRZ

/-- The Python exceptions that the TRZ module can raise or catch.
`eof` stands for the bare `IOError` raised when `struct.unpack` fails on a
short read; `notfound` and `already` are the `IOError`s with `errno.ENOENT`
and `errno.EALREADY` raised by `open_trajectory`; `valueErr` is
`ValueError` (with its message), `idxError` is `IndexError`, `attrError` is
`AttributeError`, and `diverge` is a fuel-exhaustion marker for the
`while True` loops (proven unreachable with enough fuel). -/
inductive PErr where
  | eof
  | notfound
  | already
  | valueErr (msg : String)
  | idxError
  | attrError
  | diverge
deriving Repr, DecidableEq

/-- `except IOError` catches `eof`, `notfound` and `already` (all are
`IOError` in the Python source) but not `ValueError`, `IndexError` or
`AttributeError`. -/
def PErr.isIOError : PErr → Bool
  | .eof => true
  | .notfound => true
  | .already => true
  | _ => false

/-- Little-endian numeric value of a byte string. -/
def leVal (bs : List Nat) : Nat :=
  bs.foldr (fun b acc => b % 256 + 256 * acc) 0

/-- `struct.unpack` of format i (signed 32-bit little-endian integer). -/
def decodeI32 (bs : List Nat) : Int :=
  let u := leVal bs
  if u < 2 ^ 31 then (u : Int) else (u : Int) - 2 ^ 32

/-- Numeric model of `struct.unpack` of format d (8-byte float): the
little-endian value of the 8 bytes, used as an abstract numeric carrier. -/
def decodeF64 (bs : List Nat) : Int := (leVal bs : Int)

/-- Numeric model of `struct.unpack` of format f (4-byte float). -/
def decodeF32 (bs : List Nat) : Int := (leVal bs : Int)

/-- `struct.unpack` of `n` consecutive 8-byte floats. -/
def decodeF64s : Nat → List Nat → List Int
  | 0, _ => []
  | n + 1, bs => decodeF64 (bs.take 8) :: decodeF64s n (bs.drop 8)

/-- `struct.unpack` of `n` consecutive 4-byte floats. -/
def decodeF32s : Nat → List Nat → List Int
  | 0, _ => []
  | n + 1, bs => decodeF32 (bs.take 4) :: decodeF32s n (bs.drop 4)

/-- Modelled from the spec: the external unit-conversion collaborator
(`base.Reader.convert_pos_from_native`, not under src/); it rescales
native lengths (nm) to the caller's unit system (angstrom), in place. -/
def convert_pos_from_native (v : Int) : Int := 10 * v

/-- Modelled from the spec: the external unit-conversion collaborator
(`base.Reader.convert_velocities_from_native`, not under src/). -/
def convert_velocities_from_native (v : Int) : Int := 10 * v

/-- Modelled from the spec: `MDAnalysis.coordinates.core.triclinic_box`
(not under src/) returns the triclinic box representation of three edge
vectors (three edge vectors, not necessarily orthogonal). -/
def triclinic_box (x y z : List Int) : List (List Int) := [x, y, z]

/-- The TRZ `Timestep`: one frame's physical state.  Fields keep the Python
attribute names (leading underscores dropped).  `Option` fields are
attributes that the ndarray constructor branch leaves unset; `status` and
`step` are only ever created by `TRZReader.open_trajectory`. -/
structure Timestep where
  frame : Int
  numatoms : Int
  time : Option Int
  pressure : Option Int
  pressure_tensor : Option (List Int)
  total_energy : Option Int
  potential_energy : Option Int
  kinetic_energy : Option Int
  temperature : Option Int
  unitcell : List Int
  pos : List (List Int)
  velocities : Option (List (List Int))
  status : Option Int
  step : Option Int
deriving Repr, DecidableEq

/-- A numpy ndarray: its shape, and its entries flattened row-major. -/
structure NDArray where
  shape : List Nat
  data : List Int
deriving Repr, DecidableEq

/-- Split a flat row-major list into `rows` rows of `cols` entries. -/
def toRows (cols : Nat) : Nat → List Int → List (List Int)
  | 0, _ => []
  | r + 1, d => d.take cols :: toRows cols r (d.drop cols)

/-- The argument given to `Timestep.__init__`: a Python int, another
`Timestep`, a numpy ndarray, or anything else. -/
inductive TSArg where
  | intArg (n : Int)
  | tsArg (t : Timestep)
  | arrArg (a : NDArray)
  | otherArg
deriving Repr, DecidableEq

/-- `Timestep.__init__` (TRZ.py lines 74-119).  Three branches:
* int argument: zero-initialized snapshot; `numpy.zeros((n, 3))` raises
  `ValueError` for negative `n`;
* `Timestep` argument: deep copy; reading a missing attribute of the source
  raises `AttributeError`;
* ndarray argument: `ValueError` unless the array has exactly 2 dimensions;
  copies the first axis length into `numatoms` and the contents into `pos`,
  leaving `time`, the scalars and `velocities` unset;
* anything else: `ValueError`.
The trailing `self._x = self._pos[:,0]` (and `_y`, `_z`) view creation
raises `IndexError` when the position array has fewer than 3 columns; the
views themselves are modelled implicitly (column `k` of `pos`). -/
def Timestep.make : TSArg → Except PErr Timestep
  | .intArg n =>
    if n < 0 then
      .error (.valueErr "negative dimensions are not allowed")
    else
      .ok { frame := 0
            numatoms := n
            time := some 0
            pressure := some 0
            pressure_tensor := some (List.replicate 6 0)
            total_energy := some 0
            potential_energy := some 0
            kinetic_energy := some 0
            temperature := some 0
            pos := List.replicate n.toNat (List.replicate 3 0)
            velocities := some (List.replicate n.toNat (List.replicate 3 0))
            unitcell := List.replicate 9 0
            status := none
            step := none }
  | .tsArg t =>
    -- copy constructor: `self.time = arg.time` etc.; a source attribute
    -- that was never set raises AttributeError
    match t.time, t.pressure, t.pressure_tensor, t.total_energy,
          t.potential_energy, t.kinetic_energy, t.temperature,
          t.velocities with
    | some ti, some pr, some pt, some te, some pe, some ke, some tm,
      some ve =>
      .ok { frame := t.frame
            numatoms := t.numatoms
            time := some ti
            pressure := some pr
            pressure_tensor := some pt
            total_energy := some te
            potential_energy := some pe
            kinetic_energy := some ke
            temperature := some tm
            unitcell := t.unitcell
            pos := t.pos
            velocities := some ve
            -- the copy branch assigns only the twelve attributes above;
            -- `status` and `step` (created by open_trajectory) are never
            -- copied, so the copy does not have them
            status := none
            step := none }
    | _, _, _, _, _, _, _, _ => .error .attrError
  | .arrArg a =>
    if a.shape.length ≠ 2 then
      .error (.valueErr "numpy array can only have 2 dimensions")
    else
      let nrows := a.shape.headD 0
      let ncols := (a.shape.drop 1).headD 0
      -- `self._x = self._pos[:,0]` .. `self._z = self._pos[:,2]` need at
      -- least 3 columns along axis 1
      if ncols < 3 then
        .error .idxError
      else
        .ok { frame := 0
              numatoms := (nrows : Int)
              time := none
              pressure := none
              pressure_tensor := none
              total_energy := none
              potential_energy := none
              kinetic_energy := none
              temperature := none
              unitcell := List.replicate 9 0
              pos := toRows ncols nrows a.data
              velocities := none
              status := none
              step := none }
  | .otherArg => .error (.valueErr "Cannot create an empty Timestep")

/-- The `dimensions` property (TRZ.py lines 121-130): slices `_unitcell`
into three 3-vectors and hands them to `triclinic_box`. -/
def Timestep.dimensions (t : Timestep) : List (List Int) :=
  let x := t.unitcell.take 3
  let y := (t.unitcell.drop 3).take 3
  let z := (t.unitcell.drop 6).take 3
  triclinic_box x y z

/-- The `TRZReader` object.  `fileBytes` is the content the open handle
reads; `fileExists` says whether the path currently exists (so whether a
re-open succeeds); `trzfile` is the open stream handle, carrying its
position (`none` when closed); the three `Option` caches are the private
attributes `__numatoms`, `__numframes` and `__delta`. -/
structure Reader where
  fileBytes : List Nat
  fileExists : Bool
  convert_units : Bool
  trzfile : Option Nat
  numatomsC : Option Int
  numframesC : Option Nat
  deltaC : Option Int
  ts : Timestep
deriving Repr, DecidableEq

namespace Reader

/-- `self.trzfile.read(n)` followed by `struct.unpack` of the full width:
fails (`struct.error`, surfaced as the bare `IOError` `.eof`) when fewer
than `n` bytes remain; a failed read still consumes the remaining bytes.
A closed handle raises `AttributeError`. -/
def fread (r : Reader) (n : Nat) : Except PErr (List Nat) × Reader :=
  match r.trzfile with
  | none => (.error .attrError, r)
  | some p =>
    if p + n ≤ r.fileBytes.length then
      (.ok ((r.fileBytes.drop p).take n), { r with trzfile := some (p + n) })
    else
      (.error .eof, { r with trzfile := some (max p r.fileBytes.length) })

/-- `self.trzfile.seek(n, 1)`: advance the position, never fails on an open
handle (seeking past the end is allowed). -/
def fseek (r : Reader) (n : Nat) : Except PErr Unit × Reader :=
  match r.trzfile with
  | none => (.error .attrError, r)
  | some p => (.ok (), { r with trzfile := some (p + n) })

/-- numpy slice assignment `colview[:] = vals` for column `k` of a list of
rows: lengths must match, except that a length-1 input broadcasts;
otherwise `ValueError`. -/
def colAssign (rows : List (List Int)) (k : Nat) (vals : List Int) :
    Except PErr (List (List Int)) :=
  if vals.length = rows.length then
    .ok (List.zipWith (fun row v => row.set k v) rows vals)
  else if vals.length = 1 then
    .ok (rows.map (fun row => row.set k (vals.headD 0)))
  else
    .error (.valueErr "could not broadcast input array")

/-- numpy slice assignment `flat[:] = vals` for a flat array. -/
def sliceAssign (old vals : List Int) : Except PErr (List Int) :=
  if vals.length = old.length then
    .ok vals
  else if vals.length = 1 then
    .ok (List.replicate old.length (vals.headD 0))
  else
    .error (.valueErr "could not broadcast input array")

/-- `TRZReader._read_next_timestep` (TRZ.py lines 214-267), decoding one
frame record into the current snapshot.  Stream reads and seeks are
inlined with a local position `p` (the handle is open throughout); every
short read raises `struct.error`, which the source converts to a bare
`IOError` (`.eof` here).  numpy broadcast failures (`ValueError`) and a
missing `_velocities` attribute (`AttributeError`) are not caught by the
source's `except struct.error` and so propagate.  `ts.pressure` and the
four energy attributes are assigned from `struct.unpack` without `[0]` in
the source (they become 1-tuples); the model stores the sole element. -/
def readNextTimestep (r : Reader) : Except PErr Timestep × Reader :=
  match r.trzfile with
  | none => (.error .attrError, r)
  | some p0 =>
    let bytes := r.fileBytes
    let L := bytes.length
    let fail := fun (e : PErr) (p : Nat) (t : Timestep) =>
      ((.error e : Except PErr Timestep),
       { r with trzfile := some (max p L), ts := t })
    let ts := r.ts
    -- self.trzfile.seek(12,1)
    let p := p0 + 12
    -- natoms = struct.unpack('i',self.trzfile.read(4))[0]
    if p + 4 ≤ L then
      let natoms := decodeI32 ((bytes.drop p).take 4)
      let p := p + 4
      -- ts.time = struct.unpack('d',self.trzfile.read(8))[0]
      if p + 8 ≤ L then
        let ts := { ts with time := some (decodeF64 ((bytes.drop p).take 8)) }
        let p := p + 8
        -- self.trzfile.seek(8,1)
        let p := p + 8
        -- ts._unitcell[:] = struct.unpack('9d',self.trzfile.read(72))
        if p + 72 ≤ L then
          match sliceAssign ts.unitcell (decodeF64s 9 ((bytes.drop p).take 72)) with
          | .error e => (.error e, { r with trzfile := some (p + 72), ts := ts })
          | .ok cell =>
          let ts := { ts with unitcell := cell }
          let p := p + 72
          -- self.trzfile.seek(4,1); self.trzfile.seek(4,1)
          let p := p + 4 + 4
          -- ts.pressure = struct.unpack('d',self.trzfile.read(8))
          if p + 8 ≤ L then
            let ts := { ts with pressure := some (decodeF64 ((bytes.drop p).take 8)) }
            let p := p + 8
            -- ts.pressure_tensor[:] = struct.unpack('6d',self.trzfile.read(8*6))
            if p + 48 ≤ L then
              match ts.pressure_tensor with
              | none => (.error .attrError, { r with trzfile := some (p + 48), ts := ts })
              | some pt0 =>
              match sliceAssign pt0 (decodeF64s 6 ((bytes.drop p).take 48)) with
              | .error e => (.error e, { r with trzfile := some (p + 48), ts := ts })
              | .ok pt =>
              let ts := { ts with pressure_tensor := some pt }
              let p := p + 48
              -- self.trzfile.seek(4,1); self.trzfile.seek(8,1)
              let p := p + 4 + 8
              -- ts.total_energy / potential_energy / kinetic_energy / temperature
              if p + 8 ≤ L then
                let ts := { ts with total_energy := some (decodeF64 ((bytes.drop p).take 8)) }
                let p := p + 8
                if p + 8 ≤ L then
                  let ts := { ts with potential_energy := some (decodeF64 ((bytes.drop p).take 8)) }
                  let p := p + 8
                  if p + 8 ≤ L then
                    let ts := { ts with kinetic_energy := some (decodeF64 ((bytes.drop p).take 8)) }
                    let p := p + 8
                    if p + 8 ≤ L then
                      let ts := { ts with temperature := some (decodeF64 ((bytes.drop p).take 8)) }
                      let p := p + 8
                      -- self.trzfile.seek((2*8+4),1)
                      let p := p + 20
                      -- readarg = str(natoms)+'f'; self.trzfile.seek(4,1)
                      let p := p + 4
                      -- a negative declared atom count yields a malformed
                      -- struct format string: struct.error, i.e. IOError
                      if natoms < 0 then fail .eof p ts else
                      let nA := natoms.toNat
                      -- ts._x[:] = struct.unpack(readarg, read(4*natoms))
                      if p + 4 * nA ≤ L then
                        match colAssign ts.pos 0 (decodeF32s nA ((bytes.drop p).take (4 * nA))) with
                        | .error e => (.error e, { r with trzfile := some (p + 4 * nA), ts := ts })
                        | .ok pos1 =>
                        let ts := { ts with pos := pos1 }
                        let p := p + 4 * nA
                        -- self.trzfile.seek(8,1); ts._y[:] = ...
                        let p := p + 8
                        if p + 4 * nA ≤ L then
                          match colAssign ts.pos 1 (decodeF32s nA ((bytes.drop p).take (4 * nA))) with
                          | .error e => (.error e, { r with trzfile := some (p + 4 * nA), ts := ts })
                          | .ok pos2 =>
                          let ts := { ts with pos := pos2 }
                          let p := p + 4 * nA
                          -- self.trzfile.seek(8,1); ts._z[:] = ...
                          let p := p + 8
                          if p + 4 * nA ≤ L then
                            match colAssign ts.pos 2 (decodeF32s nA ((bytes.drop p).take (4 * nA))) with
                            | .error e => (.error e, { r with trzfile := some (p + 4 * nA), ts := ts })
                            | .ok pos3 =>
                            let ts := { ts with pos := pos3 }
                            let p := p + 4 * nA
                            -- self.trzfile.seek(4,1); self.trzfile.seek(4,1)
                            let p := p + 4 + 4
                            -- ts._velocities[:,0] = ...
                            match ts.velocities with
                            | none => (.error .attrError, { r with trzfile := some p, ts := ts })
                            | some vel0 =>
                            if p + 4 * nA ≤ L then
                              match colAssign vel0 0 (decodeF32s nA ((bytes.drop p).take (4 * nA))) with
                              | .error e => (.error e, { r with trzfile := some (p + 4 * nA), ts := ts })
                              | .ok vel1 =>
                              let ts := { ts with velocities := some vel1 }
                              let p := p + 4 * nA
                              -- self.trzfile.seek(8,1); ts._velocities[:,1] = ...
                              let p := p + 8
                              if p + 4 * nA ≤ L then
                                match colAssign vel1 1 (decodeF32s nA ((bytes.drop p).take (4 * nA))) with
                                | .error e => (.error e, { r with trzfile := some (p + 4 * nA), ts := ts })
                                | .ok vel2 =>
                                let ts := { ts with velocities := some vel2 }
                                let p := p + 4 * nA
                                -- self.trzfile.seek(8,1); ts._velocities[:,2] = ...
                                let p := p + 8
                                if p + 4 * nA ≤ L then
                                  match colAssign vel2 2 (decodeF32s nA ((bytes.drop p).take (4 * nA))) with
                                  | .error e => (.error e, { r with trzfile := some (p + 4 * nA), ts := ts })
                                  | .ok vel3 =>
                                  let ts := { ts with velocities := some vel3 }
                                  let p := p + 4 * nA
                                  -- self.trzfile.seek(4,1)
                                  let p := p + 4
                                  -- ts.frame += 1
                                  let ts := { ts with frame := ts.frame + 1 }
                                  -- unit conversion of positions, unit cell
                                  -- and velocities (not time)
                                  let ts :=
                                    if r.convert_units then
                                      { ts with
                                        pos := ts.pos.map (List.map convert_pos_from_native)
                                        unitcell := ts.unitcell.map convert_pos_from_native
                                        velocities := some (vel3.map (List.map convert_velocities_from_native)) }
                                    else ts
                                  (.ok ts, { r with trzfile := some p, ts := ts })
                                else fail .eof p ts
                              else fail .eof p ts
                            else fail .eof p ts
                          else fail .eof p ts
                        else fail .eof p ts
                      else fail .eof p ts
                    else fail .eof p ts
                  else fail .eof p ts
                else fail .eof p ts
              else fail .eof p ts
            else fail .eof p ts
          else fail .eof p ts
        else fail .eof p ts
      else fail .eof p ts
    else fail .eof p ts

/-- `TRZReader.open_trajectory` (lines 357-372): `AlreadyOpen` when a
stream is held, `NotFound` when the path is gone; on success opens at
position 0 and resets the snapshot's `status`, `frame`, `step`, `time`. -/
def open_trajectory (r : Reader) : Except PErr Unit × Reader :=
  if r.trzfile.isSome then (.error .already, r)
  else if !r.fileExists then (.error .notfound, r)
  else
    (.ok (),
     { r with
       trzfile := some 0
       ts := { r.ts with
               status := some 1
               frame := 0
               step := some 0
               time := some 0 } })

/-- `TRZReader.close` (lines 374-379). -/
def close (r : Reader) : Reader := { r with trzfile := none }

/-- `TRZReader._read_trz_header` (lines 203-212): skip the 100-byte
header. -/
def readTRZHeader (r : Reader) : Except PErr Unit × Reader := fseek r 100

/-- `TRZReader._reopen` (lines 352-355). -/
def reopen (r : Reader) : Except PErr Unit × Reader :=
  let r := close r
  match open_trajectory r with
  | (.error e, r) => (.error e, r)
  | (.ok _, r) => readTRZHeader r

/-- Modelled from the spec: `base.Reader.next` (the `base` module is not
under src/) advances by one frame by delegating to
`_read_next_timestep`. -/
def next (r : Reader) : Except PErr Timestep × Reader := readNextTimestep r

/-- `TRZReader.rewind` (lines 347-350): `_reopen` then `next`. -/
def rewind (r : Reader) : Except PErr Timestep × Reader :=
  match reopen r with
  | (.error e, r) => (.error e, r)
  | (.ok _, r) => next r

/-- `TRZReader._read_trz_natoms` (lines 282-291): peek the declared atom
count of the next frame, then `_reopen`. -/
def readTRZNatoms (r : Reader) : Except PErr Int × Reader :=
  match fseek r 12 with
  | (.error e, r) => (.error e, r)
  | (.ok _, r) =>
    match fread r 4 with
    | (.error e, r) => (.error e, r)
    | (.ok bs, r) =>
      match reopen r with
      | (.error e, r) => (.error e, r)
      | (.ok _, r) => (.ok (decodeI32 bs), r)

/-- The `numatoms` property (lines 269-280): cached; otherwise probes via
`_reopen` and `_read_trz_natoms`, converting any `IOError` into 0. -/
def numatoms (r : Reader) : Except PErr Int × Reader :=
  match r.numatomsC with
  | some n => (.ok n, r)
  | none =>
    let body : Except PErr Int × Reader :=
      match reopen r with
      | (.error e, r) => (.error e, r)
      | (.ok _, r) =>
        match readTRZNatoms r with
        | (.error e, r) => (.error e, r)
        | (.ok n, r) => (.ok n, { r with numatomsC := some n })
    match body with
    | (.ok n, r) => (.ok n, r)
    | (.error e, r) => if e.isIOError then (.ok 0, r) else (.error e, r)

/-- The `while True` loop of `_read_trz_numframes` (lines 308-314),
fuelled; `.diverge` marks fuel exhaustion (unreachable with enough
fuel). -/
def readTRZNumframesLoop : Nat → Nat → Reader → Except PErr Nat × Reader
  | 0, _, r => (.error .diverge, r)
  | fuel + 1, acc, r =>
    match readNextTimestep r with
    | (.ok _, r) => readTRZNumframesLoop fuel (acc + 1) r
    | (.error e, r) =>
      if e.isIOError then
        match rewind r with
        | (.error e2, r) => (.error e2, r)
        | (.ok _, r) => (.ok acc, r)
      else (.error e, r)

/-- `TRZReader._read_trz_numframes` (lines 305-314). -/
def readTRZNumframes (r : Reader) : Except PErr Nat × Reader :=
  match reopen r with
  | (.error e, r) => (.error e, r)
  | (.ok _, r) => readTRZNumframesLoop (r.fileBytes.length + 2) 0 r

/-- The `numframes` property (lines 293-303): cached; otherwise scans the
whole stream, converting any `IOError` into 0. -/
def numframes (r : Reader) : Except PErr Nat × Reader :=
  match r.numframesC with
  | some n => (.ok n, r)
  | none =>
    match readTRZNumframes r with
    | (.ok n, r) => (.ok n, { r with numframesC := some n })
    | (.error e, r) => if e.isIOError then (.ok 0, r) else (.error e, r)

/-- The `delta` property (lines 316-335): cached; otherwise reads the
current time, advances once, subtracts, caches; `except IOError: return 0`;
a `finally` clause always rewinds, and an exception it raises supersedes
the pending return. -/
def delta (r : Reader) : Except PErr Int × Reader :=
  match r.deltaC with
  | some d => (.ok d, r)
  | none =>
    let body : Except PErr Int × Reader :=
      match r.ts.time with
      | none => (.error .attrError, r)
      | some t0 =>
        match next r with
        | (.error e, r) => (.error e, r)
        | (.ok _, r) =>
          match r.ts.time with
          | none => (.error .attrError, r)
          | some t1 => (.ok (t1 - t0), { r with deltaC := some (t1 - t0) })
    let pending : Except PErr Int × Reader :=
      match body with
      | (.ok d, r) => (.ok d, r)
      | (.error e, r) => if e.isIOError then (.ok 0, r) else (.error e, r)
    match rewind pending.2 with
    | (.error e2, r) => (.error e2, r)
    | (.ok _, r) => (pending.1, r)

/-- The loop of `__iter__` (lines 340-345), fuelled: yield each decoded
snapshot (by value, at yield time) until an `IOError`, then `rewind` and
stop cleanly; an error raised by that rewind surfaces to the consumer. -/
def iterLoop : Nat → Reader → Except PErr (List Timestep) × Reader
  | 0, r => (.error .diverge, r)
  | fuel + 1, r =>
    match readNextTimestep r with
    | (.ok t, r) =>
      match iterLoop fuel r with
      | (.ok rest, r) => (.ok (t :: rest), r)
      | (.error e, r) => (.error e, r)
    | (.error e, r) =>
      if e.isIOError then
        match rewind r with
        | (.error e2, r) => (.error e2, r)
        | (.ok _, r) => (.ok [], r)
      else (.error e, r)

/-- `TRZReader.__iter__` (lines 337-345), consumed to completion: reset
the frame counter, `_reopen`, then the yield loop. -/
def iterate (r : Reader) : Except PErr (List Timestep) × Reader :=
  let r := { r with ts := { r.ts with frame := 0 } }
  match reopen r with
  | (.error e, r) => (.error e, r)
  | (.ok _, r) => iterLoop (r.fileBytes.length + 2) r

end Reader

/-- `TRZReader.__init__` (lines 169-201): requires the `numatoms` keyword,
opens the file (builtin `open`, `IOError` if the path is missing), skips
the header, allocates the snapshot by atom count, and reads the first
frame. -/
def mkTRZReader (bytes : List Nat) (exists0 : Bool) (numatoms0 : Option Int)
    (convert : Bool) : Except PErr Reader :=
  match numatoms0 with
  | none => .error (.valueErr "TRZReader requires the numatoms keyword")
  | some na =>
    if !exists0 then .error .notfound
    else
      match Timestep.make (.intArg na) with
      | .error e => .error e
      | .ok ts0 =>
        -- handle opened at 0, then _read_trz_header seeks to 100
        let r : Reader :=
          { fileBytes := bytes, fileExists := exists0,
            convert_units := convert, trzfile := some 100,
            numatomsC := some na, numframesC := none, deltaC := none,
            ts := ts0 }
        match Reader.readNextTimestep r with
        | (.error e, _) => .error e
        | (.ok _, r) => .ok r

/-- Shape discipline of a decoder-owned snapshot for `n` atoms: `n`
position rows of length 3, velocities present with the same shape, a
9-entry unit cell and a 6-entry pressure tensor. -/
def wfTs (t : Timestep) (n : Nat) : Bool :=
  (t.pos.map List.length == List.replicate n 3) &&
  (t.velocities.map (fun v => v.map List.length) == some (List.replicate n 3)) &&
  (t.unitcell.length == 9) &&
  (t.pressure_tensor.map List.length == some 6)

/-! A pure, position-passing recharacterization of one frame decode, used
only inside proofs: `decodeFrame` retraces `readNextTimestep`'s reads,
seeks and length checks over the raw bytes, and `applyRaw` is the
resulting snapshot update.  Their agreement with `readNextTimestep` is
proved in `advance_spec` below. -/

/-- The raw fields of one decoded frame record plus the stream position
after it. -/
structure RawFrame where
  natoms : Int
  time : Int
  unitcell : List Int
  pressure : Int
  ptensor : List Int
  etot : Int
  epot : Int
  ekin : Int
  temper : Int
  xs : List Int
  ys : List Int
  zs : List Int
  vxs : List Int
  vys : List Int
  vzs : List Int
  endPos : Nat
deriving Repr, DecidableEq

/-- Pure mirror of `Reader.readNextTimestep` for a snapshot with `n`
position rows: the same reads, seeks and slice-length checks, threaded
over a bare position. -/
def decodeFrame (bytes : List Nat) (n : Nat) (p0 : Nat) : Except PErr RawFrame :=
  let L := bytes.length
  let p := p0 + 12
  if p + 4 ≤ L then
    let natoms := decodeI32 ((bytes.drop p).take 4)
    let p := p + 4
    if p + 8 ≤ L then
      let time := decodeF64 ((bytes.drop p).take 8)
      let p := p + 8 + 8
      if p + 72 ≤ L then
        let cell := decodeF64s 9 ((bytes.drop p).take 72)
        let p := p + 72 + 4 + 4
        if p + 8 ≤ L then
          let pres := decodeF64 ((bytes.drop p).take 8)
          let p := p + 8
          if p + 48 ≤ L then
            let pt := decodeF64s 6 ((bytes.drop p).take 48)
            let p := p + 48 + 4 + 8
            if p + 8 ≤ L then
              let etot := decodeF64 ((bytes.drop p).take 8)
              let p := p + 8
              if p + 8 ≤ L then
                let epot := decodeF64 ((bytes.drop p).take 8)
                let p := p + 8
                if p + 8 ≤ L then
                  let ekin := decodeF64 ((bytes.drop p).take 8)
                  let p := p + 8
                  if p + 8 ≤ L then
                    let temper := decodeF64 ((bytes.drop p).take 8)
                    let p := p + 8 + 20 + 4
                    if natoms < 0 then .error .eof
                    else
                      let nA := natoms.toNat
                      if p + 4 * nA ≤ L then
                        let xs := decodeF32s nA ((bytes.drop p).take (4 * nA))
                        if nA = n ∨ nA = 1 then
                          let p := p + 4 * nA + 8
                          if p + 4 * nA ≤ L then
                            let ys := decodeF32s nA ((bytes.drop p).take (4 * nA))
                            let p := p + 4 * nA + 8
                            if p + 4 * nA ≤ L then
                              let zs := decodeF32s nA ((bytes.drop p).take (4 * nA))
                              let p := p + 4 * nA + 4 + 4
                              if p + 4 * nA ≤ L then
                                let vxs := decodeF32s nA ((bytes.drop p).take (4 * nA))
                                let p := p + 4 * nA + 8
                                if p + 4 * nA ≤ L then
                                  let vys := decodeF32s nA ((bytes.drop p).take (4 * nA))
                                  let p := p + 4 * nA + 8
                                  if p + 4 * nA ≤ L then
                                    let vzs := decodeF32s nA ((bytes.drop p).take (4 * nA))
                                    let p := p + 4 * nA + 4
                                    .ok { natoms := natoms, time := time,
                                          unitcell := cell, pressure := pres,
                                          ptensor := pt, etot := etot,
                                          epot := epot, ekin := ekin,
                                          temper := temper, xs := xs, ys := ys,
                                          zs := zs, vxs := vxs, vys := vys,
                                          vzs := vzs, endPos := p }
                                  else .error .eof
                                else .error .eof
                              else .error .eof
                            else .error .eof
                          else .error .eof
                        else .error (.valueErr "could not broadcast input array")
                      else .error .eof
                  else .error .eof
                else .error .eof
              else .error .eof
            else .error .eof
          else .error .eof
        else .error .eof
      else .error .eof
    else .error .eof
  else .error .eof

/-- Row-wise pairing of the three per-axis value lists. -/
def zip3Rows : List Int → List Int → List Int → List (List Int)
  | x :: xs, y :: ys, z :: zs => [x, y, z] :: zip3Rows xs ys zs
  | _, _, _ => []

/-- The position (or velocity) matrix resulting from assigning the three
axis columns into `n` rows: row-wise when the lengths match, numpy
broadcast of the single value otherwise. -/
def assembleCols (n : Nat) (xs ys zs : List Int) : List (List Int) :=
  if xs.length = n then zip3Rows xs ys zs
  else List.replicate n [xs.headD 0, ys.headD 0, zs.headD 0]

/-- The snapshot produced by decoding `raw` into `t` (a snapshot with `n`
position rows): all physical fields overwritten, frame counter
incremented, optional unit conversion of positions, unit cell and
velocities. -/
def applyRaw (n : Nat) (t : Timestep) (raw : RawFrame) (conv : Bool) : Timestep :=
  let pos0 := assembleCols n raw.xs raw.ys raw.zs
  let vel0 := assembleCols n raw.vxs raw.vys raw.vzs
  { t with
    frame := t.frame + 1
    time := some raw.time
    unitcell := if conv then raw.unitcell.map convert_pos_from_native else raw.unitcell
    pressure := some raw.pressure
    pressure_tensor := some raw.ptensor
    total_energy := some raw.etot
    potential_energy := some raw.epot
    kinetic_energy := some raw.ekin
    temperature := some raw.temper
    pos := if conv then pos0.map (List.map convert_pos_from_native) else pos0
    velocities := some (if conv then vel0.map (List.map convert_velocities_from_native) else vel0) }

/-! Supporting lemmas about the pure decode layer. -/

theorem decodeF64s_length (n : Nat) (bs : List Nat) : (decodeF64s n bs).length = n := by
  induction n generalizing bs with
  | zero => rfl
  | succ k ih => simp [decodeF64s, ih]

theorem decodeF32s_length (n : Nat) (bs : List Nat) : (decodeF32s n bs).length = n := by
  induction n generalizing bs with
  | zero => rfl
  | succ k ih => simp [decodeF32s, ih]

theorem zip3Rows_map_length (xs ys zs : List Int)
    (hy : ys.length = xs.length) (hz : zs.length = xs.length) :
    (zip3Rows xs ys zs).map List.length = List.replicate xs.length 3 := by
  induction xs generalizing ys zs with
  | nil =>
    cases ys with
    | nil => cases zs <;> simp [zip3Rows]
    | cons b bs => simp at hy
  | cons a as ih =>
    cases ys with
    | nil => simp at hy
    | cons b bs =>
      cases zs with
      | nil => simp at hz
      | cons c cs =>
        simp only [zip3Rows, List.map_cons, List.length_cons,
          List.replicate_succ]
        simp only [List.length_cons] at hy hz
        rw [ih bs cs (by omega) (by omega)]
        simp

theorem setChain3 (rows : List (List Int)) (xs ys zs : List Int)
    (hrow : rows.map List.length = List.replicate rows.length 3)
    (hx : xs.length = rows.length) (hy : ys.length = rows.length)
    (hz : zs.length = rows.length) :
    List.zipWith (fun row v => row.set 2 v)
      (List.zipWith (fun row v => row.set 1 v)
        (List.zipWith (fun row v => row.set 0 v) rows xs) ys) zs =
    zip3Rows xs ys zs := by
  induction rows generalizing xs ys zs with
  | nil =>
    have : xs = [] := List.length_eq_zero.mp (by simpa using hx)
    subst this
    simp [zip3Rows]
  | cons row rest ih =>
    cases xs with
    | nil => simp at hx
    | cons x xs' =>
      cases ys with
      | nil => simp at hy
      | cons y ys' =>
        cases zs with
        | nil => simp at hz
        | cons z zs' =>
          simp only [List.map_cons, List.length_cons, List.replicate_succ,
            List.cons.injEq] at hrow
          obtain ⟨hr3, hrest⟩ := hrow
          obtain ⟨r0, r1, r2, hreq⟩ := List.length_eq_three.mp hr3
          subst hreq
          simp only [List.length_cons] at hx hy hz
          simp only [List.zipWith_cons_cons, zip3Rows]
          rw [ih xs' ys' zs' (by simpa using hrest) (by omega) (by omega) (by omega)]
          rfl

theorem setBroadcast3 (rows : List (List Int)) (x y z : Int)
    (hrow : rows.map List.length = List.replicate rows.length 3) :
    ((rows.map (fun row => row.set 0 x)).map (fun row => row.set 1 y)).map
        (fun row => row.set 2 z) =
      List.replicate rows.length [x, y, z] := by
  induction rows with
  | nil => simp
  | cons row rest ih =>
    simp only [List.map_cons, List.length_cons, List.replicate_succ,
      List.cons.injEq] at hrow ⊢
    obtain ⟨hr3, hrest⟩ := hrow
    obtain ⟨r0, r1, r2, hreq⟩ := List.length_eq_three.mp hr3
    subst hreq
    exact ⟨rfl, ih (by simpa using hrest)⟩

theorem zipWith_set_map_length (rows : List (List Int)) (vals : List Int)
    (k : Nat) (hv : vals.length = rows.length) :
    (List.zipWith (fun row v => row.set k v) rows vals).map List.length =
      rows.map List.length := by
  induction rows generalizing vals with
  | nil => simp
  | cons row rest ih =>
    cases vals with
    | nil => simp at hv
    | cons v vs =>
      simp only [List.length_cons] at hv
      simp only [List.zipWith_cons_cons, List.map_cons, List.length_set]
      rw [ih vs (by omega)]

theorem map_set_map_length (rows : List (List Int)) (k : Nat) (x : Int) :
    (rows.map (fun row => row.set k x)).map List.length =
      rows.map List.length := by
  induction rows with
  | nil => simp
  | cons row rest ih =>
    simp only [List.map_cons, List.length_set, ih]

theorem map_length_comp_set (rows : List (List Int)) (k : Nat) (x : Int) :
    List.map (List.length ∘ fun row => row.set k x) rows =
      rows.map List.length := by
  induction rows with
  | nil => simp
  | cons row rest ih =>
    simp only [List.map_cons, Function.comp_apply, List.length_set, ih]

theorem decodeFrame_ok_shape (bytes : List Nat) (n p : Nat) (raw : RawFrame)
    (h : decodeFrame bytes n p = .ok raw) :
    raw.xs.length = raw.natoms.toNat ∧ raw.ys.length = raw.natoms.toNat ∧
    raw.zs.length = raw.natoms.toNat ∧ raw.vxs.length = raw.natoms.toNat ∧
    raw.vys.length = raw.natoms.toNat ∧ raw.vzs.length = raw.natoms.toNat ∧
    (raw.natoms.toNat = n ∨ raw.natoms.toNat = 1) ∧
    raw.unitcell.length = 9 ∧ raw.ptensor.length = 6 ∧
    p + 240 ≤ raw.endPos ∧ p + 16 ≤ bytes.length := by
  unfold decodeFrame at h
  simp only [] at h
  set na := decodeI32 (List.take 4 (List.drop (p + 12) bytes)) with hna
  set nb := na.toNat with hnb
  by_cases h1 : p + 12 + 4 ≤ bytes.length
  case neg => rw [if_neg h1] at h; exact Except.noConfusion h
  rw [if_pos h1] at h
  by_cases h2 : p + 12 + 4 + 8 ≤ bytes.length
  case neg => rw [if_neg h2] at h; exact Except.noConfusion h
  rw [if_pos h2] at h
  by_cases h3 : p + 12 + 4 + 8 + 8 + 72 ≤ bytes.length
  case neg => rw [if_neg h3] at h; exact Except.noConfusion h
  rw [if_pos h3] at h
  by_cases h4 : p + 12 + 4 + 8 + 8 + 72 + 4 + 4 + 8 ≤ bytes.length
  case neg => rw [if_neg h4] at h; exact Except.noConfusion h
  rw [if_pos h4] at h
  by_cases h5 : p + 12 + 4 + 8 + 8 + 72 + 4 + 4 + 8 + 48 ≤ bytes.length
  case neg => rw [if_neg h5] at h; exact Except.noConfusion h
  rw [if_pos h5] at h
  by_cases h6 : p + 12 + 4 + 8 + 8 + 72 + 4 + 4 + 8 + 48 + 4 + 8 + 8 ≤ bytes.length
  case neg => rw [if_neg h6] at h; exact Except.noConfusion h
  rw [if_pos h6] at h
  by_cases h7 : p + 12 + 4 + 8 + 8 + 72 + 4 + 4 + 8 + 48 + 4 + 8 + 8 + 8 ≤ bytes.length
  case neg => rw [if_neg h7] at h; exact Except.noConfusion h
  rw [if_pos h7] at h
  by_cases h8 : p + 12 + 4 + 8 + 8 + 72 + 4 + 4 + 8 + 48 + 4 + 8 + 8 + 8 + 8 ≤ bytes.length
  case neg => rw [if_neg h8] at h; exact Except.noConfusion h
  rw [if_pos h8] at h
  by_cases h9 : p + 12 + 4 + 8 + 8 + 72 + 4 + 4 + 8 + 48 + 4 + 8 + 8 + 8 + 8 + 8 ≤ bytes.length
  case neg => rw [if_neg h9] at h; exact Except.noConfusion h
  rw [if_pos h9] at h
  by_cases h10 : na < 0
  case pos => rw [if_pos h10] at h; exact Except.noConfusion h
  rw [if_neg h10] at h
  by_cases h11 : p + 12 + 4 + 8 + 8 + 72 + 4 + 4 + 8 + 48 + 4 + 8 + 8 + 8 + 8 + 8 + 20 + 4 + 4 * nb ≤ bytes.length
  case neg => rw [if_neg h11] at h; exact Except.noConfusion h
  rw [if_pos h11] at h
  by_cases h12 : nb = n ∨ nb = 1
  case neg => rw [if_neg h12] at h; exact Except.noConfusion h
  rw [if_pos h12] at h
  by_cases h13 : p + 12 + 4 + 8 + 8 + 72 + 4 + 4 + 8 + 48 + 4 + 8 + 8 + 8 + 8 + 8 + 20 + 4 + 4 * nb + 8 + 4 * nb ≤ bytes.length
  case neg => rw [if_neg h13] at h; exact Except.noConfusion h
  rw [if_pos h13] at h
  by_cases h14 : p + 12 + 4 + 8 + 8 + 72 + 4 + 4 + 8 + 48 + 4 + 8 + 8 + 8 + 8 + 8 + 20 + 4 + 4 * nb + 8 + 4 * nb + 8 + 4 * nb ≤ bytes.length
  case neg => rw [if_neg h14] at h; exact Except.noConfusion h
  rw [if_pos h14] at h
  by_cases h15 : p + 12 + 4 + 8 + 8 + 72 + 4 + 4 + 8 + 48 + 4 + 8 + 8 + 8 + 8 + 8 + 20 + 4 + 4 * nb + 8 + 4 * nb + 8 + 4 * nb + 4 + 4 + 4 * nb ≤ bytes.length
  case neg => rw [if_neg h15] at h; exact Except.noConfusion h
  rw [if_pos h15] at h
  by_cases h16 : p + 12 + 4 + 8 + 8 + 72 + 4 + 4 + 8 + 48 + 4 + 8 + 8 + 8 + 8 + 8 + 20 + 4 + 4 * nb + 8 + 4 * nb + 8 + 4 * nb + 4 + 4 + 4 * nb + 8 + 4 * nb ≤ bytes.length
  case neg => rw [if_neg h16] at h; exact Except.noConfusion h
  rw [if_pos h16] at h
  by_cases h17 : p + 12 + 4 + 8 + 8 + 72 + 4 + 4 + 8 + 48 + 4 + 8 + 8 + 8 + 8 + 8 + 20 + 4 + 4 * nb + 8 + 4 * nb + 8 + 4 * nb + 4 + 4 + 4 * nb + 8 + 4 * nb + 8 + 4 * nb ≤ bytes.length
  case neg => rw [if_neg h17] at h; exact Except.noConfusion h
  rw [if_pos h17] at h
  injection h with h'
  subst h'
  refine ⟨decodeF32s_length _ _, decodeF32s_length _ _, decodeF32s_length _ _,
    decodeF32s_length _ _, decodeF32s_length _ _, decodeF32s_length _ _,
    h12, decodeF64s_length _ _, decodeF64s_length _ _, ?_, by omega⟩
  show p + 240 ≤ p + 12 + 4 + 8 + 8 + 72 + 4 + 4 + 8 + 48 + 4 + 8 + 8 + 8 + 8 + 8 + 20 + 4 + 4 * nb + 8 + 4 * nb + 8 + 4 * nb + 4 + 4 + 4 * nb + 8 + 4 * nb + 8 + 4 * nb + 4
  omega

set_option maxHeartbeats 3000000 in
/-- Central equivalence: on an open handle and a well-shaped snapshot,
`_read_next_timestep` behaves exactly as the pure `decodeFrame`: on
success it installs `applyRaw` and moves the handle to the end of the
record, on failure it raises the same error, leaving a snapshot of the
same shape with frame counter and atom count untouched. -/
theorem advance_spec (r : Reader) (n p : Nat)
    (hp : r.trzfile = some p) (hWF : wfTs r.ts n = true) :
    (∃ raw, decodeFrame r.fileBytes n p = .ok raw ∧
       Reader.readNextTimestep r =
         (.ok (applyRaw n r.ts raw r.convert_units),
          { r with trzfile := some raw.endPos
                   ts := applyRaw n r.ts raw r.convert_units })) ∨
    (∃ e q t, decodeFrame r.fileBytes n p = .error e ∧
       Reader.readNextTimestep r = (.error e, { r with trzfile := some q, ts := t }) ∧
       wfTs t n = true ∧ t.frame = r.ts.frame ∧ t.numatoms = r.ts.numatoms) := by
  have hWF2 := hWF
  simp only [wfTs, Bool.and_eq_true, beq_iff_eq] at hWF2
  obtain ⟨⟨⟨hpos, hvmap⟩, hcell⟩, hptm⟩ := hWF2
  obtain ⟨v, hvel, hvlen⟩ := Option.map_eq_some'.mp hvmap
  obtain ⟨pt0, hpt, hptlen⟩ := Option.map_eq_some'.mp hptm
  have hplen : r.ts.pos.length = n := by simpa using congrArg List.length hpos
  have hvlen2 : v.length = n := by simpa using congrArg List.length hvlen
  unfold Reader.readNextTimestep decodeFrame
  rw [hp]
  simp only [Reader.sliceAssign, Reader.colAssign, decodeF64s_length,
    decodeF32s_length, hvel, hpt, hcell, hptlen, hplen, hvlen2,
    List.length_zipWith, List.length_map, eq_self_iff_true, if_true]
  set na := decodeI32 (List.take 4 (List.drop (p + 12) r.fileBytes)) with hna
  set nb := na.toNat with hnb
  by_cases h1 : p + 12 + 4 ≤ r.fileBytes.length
  case neg =>
    simp only [if_neg h1]
    exact Or.inr ⟨_, _, _, rfl, rfl, by simp only [wfTs, Bool.and_eq_true, beq_iff_eq, hpos, hvel, hvlen, hcell, hpt, hptlen, decodeF64s_length, Option.map_some', eq_self_iff_true, and_true, true_and, and_self], rfl, rfl⟩
  simp only [if_pos h1]
  by_cases h2 : p + 12 + 4 + 8 ≤ r.fileBytes.length
  case neg =>
    simp only [if_neg h2]
    exact Or.inr ⟨_, _, _, rfl, rfl, by simp only [wfTs, Bool.and_eq_true, beq_iff_eq, hpos, hvel, hvlen, hcell, hpt, hptlen, decodeF64s_length, Option.map_some', eq_self_iff_true, and_true, true_and, and_self], rfl, rfl⟩
  simp only [if_pos h2]
  by_cases h3 : p + 12 + 4 + 8 + 8 + 72 ≤ r.fileBytes.length
  case neg =>
    simp only [if_neg h3]
    exact Or.inr ⟨_, _, _, rfl, rfl, by simp only [wfTs, Bool.and_eq_true, beq_iff_eq, hpos, hvel, hvlen, hcell, hpt, hptlen, decodeF64s_length, Option.map_some', eq_self_iff_true, and_true, true_and, and_self], rfl, rfl⟩
  simp only [if_pos h3]
  by_cases h4 : p + 12 + 4 + 8 + 8 + 72 + 4 + 4 + 8 ≤ r.fileBytes.length
  case neg =>
    simp only [if_neg h4]
    exact Or.inr ⟨_, _, _, rfl, rfl, by simp only [wfTs, Bool.and_eq_true, beq_iff_eq, hpos, hvel, hvlen, hcell, hpt, hptlen, decodeF64s_length, Option.map_some', eq_self_iff_true, and_true, true_and, and_self], rfl, rfl⟩
  simp only [if_pos h4]
  by_cases h5 : p + 12 + 4 + 8 + 8 + 72 + 4 + 4 + 8 + 48 ≤ r.fileBytes.length
  case neg =>
    simp only [if_neg h5]
    exact Or.inr ⟨_, _, _, rfl, rfl, by simp only [wfTs, Bool.and_eq_true, beq_iff_eq, hpos, hvel, hvlen, hcell, hpt, hptlen, decodeF64s_length, Option.map_some', eq_self_iff_true, and_true, true_and, and_self], rfl, rfl⟩
  simp only [if_pos h5]
  by_cases h6 : p + 12 + 4 + 8 + 8 + 72 + 4 + 4 + 8 + 48 + 4 + 8 + 8 ≤ r.fileBytes.length
  case neg =>
    simp only [if_neg h6]
    exact Or.inr ⟨_, _, _, rfl, rfl, by simp only [wfTs, Bool.and_eq_true, beq_iff_eq, hpos, hvel, hvlen, hcell, hpt, hptlen, decodeF64s_length, Option.map_some', eq_self_iff_true, and_true, true_and, and_self], rfl, rfl⟩
  simp only [if_pos h6]
  by_cases h7 : p + 12 + 4 + 8 + 8 + 72 + 4 + 4 + 8 + 48 + 4 + 8 + 8 + 8 ≤ r.fileBytes.length
  case neg =>
    simp only [if_neg h7]
    exact Or.inr ⟨_, _, _, rfl, rfl, by simp only [wfTs, Bool.and_eq_true, beq_iff_eq, hpos, hvel, hvlen, hcell, hpt, hptlen, decodeF64s_length, Option.map_some', eq_self_iff_true, and_true, true_and, and_self], rfl, rfl⟩
  simp only [if_pos h7]
  by_cases h8 : p + 12 + 4 + 8 + 8 + 72 + 4 + 4 + 8 + 48 + 4 + 8 + 8 + 8 + 8 ≤ r.fileBytes.length
  case neg =>
    simp only [if_neg h8]
    exact Or.inr ⟨_, _, _, rfl, rfl, by simp only [wfTs, Bool.and_eq_true, beq_iff_eq, hpos, hvel, hvlen, hcell, hpt, hptlen, decodeF64s_length, Option.map_some', eq_self_iff_true, and_true, true_and, and_self], rfl, rfl⟩
  simp only [if_pos h8]
  by_cases h9 : p + 12 + 4 + 8 + 8 + 72 + 4 + 4 + 8 + 48 + 4 + 8 + 8 + 8 + 8 + 8 ≤ r.fileBytes.length
  case neg =>
    simp only [if_neg h9]
    exact Or.inr ⟨_, _, _, rfl, rfl, by simp only [wfTs, Bool.and_eq_true, beq_iff_eq, hpos, hvel, hvlen, hcell, hpt, hptlen, decodeF64s_length, Option.map_some', eq_self_iff_true, and_true, true_and, and_self], rfl, rfl⟩
  simp only [if_pos h9]
  by_cases h10 : na < 0
  case pos =>
    simp only [if_pos h10]
    exact Or.inr ⟨_, _, _, rfl, rfl, by simp only [wfTs, Bool.and_eq_true, beq_iff_eq, hpos, hvel, hvlen, hcell, hpt, hptlen, decodeF64s_length, Option.map_some', eq_self_iff_true, and_true, true_and, and_self], rfl, rfl⟩
  simp only [if_neg h10]
  by_cases h11 : p + 12 + 4 + 8 + 8 + 72 + 4 + 4 + 8 + 48 + 4 + 8 + 8 + 8 + 8 + 8 + 20 + 4 + 4 * nb ≤ r.fileBytes.length
  case neg =>
    simp only [if_neg h11]
    exact Or.inr ⟨_, _, _, rfl, rfl, by simp only [wfTs, Bool.and_eq_true, beq_iff_eq, hpos, hvel, hvlen, hcell, hpt, hptlen, decodeF64s_length, Option.map_some', eq_self_iff_true, and_true, true_and, and_self], rfl, rfl⟩
  simp only [if_pos h11]
  by_cases hc1 : nb = n
  · -- row-wise column assignment in every block
    have hmin : min n nb = n := by rw [hc1, min_self]
    simp only [hmin, if_pos hc1, if_pos (Or.inl hc1), List.length_zipWith,
      List.length_map, decodeF32s_length, hplen, hvlen2]
    by_cases h13 : p + 12 + 4 + 8 + 8 + 72 + 4 + 4 + 8 + 48 + 4 + 8 + 8 + 8 + 8 + 8 + 20 + 4 + 4 * nb + 8 + 4 * nb ≤ r.fileBytes.length
    case neg =>
      simp only [if_neg h13]
      exact Or.inr ⟨_, _, _, rfl, rfl, by simp only [wfTs, Bool.and_eq_true, beq_iff_eq, hpos, hvel, hvlen, hcell, hpt, hptlen, decodeF64s_length, decodeF32s_length, Option.map_some', map_set_map_length, zipWith_set_map_length, List.length_zipWith, hplen, hvlen2, min_self, hc1, eq_self_iff_true, and_true, true_and, and_self], rfl, rfl⟩
    simp only [if_pos h13]
    by_cases h14 : p + 12 + 4 + 8 + 8 + 72 + 4 + 4 + 8 + 48 + 4 + 8 + 8 + 8 + 8 + 8 + 20 + 4 + 4 * nb + 8 + 4 * nb + 8 + 4 * nb ≤ r.fileBytes.length
    case neg =>
      simp only [if_neg h14]
      exact Or.inr ⟨_, _, _, rfl, rfl, by simp only [wfTs, Bool.and_eq_true, beq_iff_eq, hpos, hvel, hvlen, hcell, hpt, hptlen, decodeF64s_length, decodeF32s_length, Option.map_some', map_set_map_length, zipWith_set_map_length, List.length_zipWith, hplen, hvlen2, min_self, hc1, eq_self_iff_true, and_true, true_and, and_self], rfl, rfl⟩
    simp only [if_pos h14]
    by_cases h15 : p + 12 + 4 + 8 + 8 + 72 + 4 + 4 + 8 + 48 + 4 + 8 + 8 + 8 + 8 + 8 + 20 + 4 + 4 * nb + 8 + 4 * nb + 8 + 4 * nb + 4 + 4 + 4 * nb ≤ r.fileBytes.length
    case neg =>
      simp only [if_neg h15]
      exact Or.inr ⟨_, _, _, rfl, rfl, by simp only [wfTs, Bool.and_eq_true, beq_iff_eq, hpos, hvel, hvlen, hcell, hpt, hptlen, decodeF64s_length, decodeF32s_length, Option.map_some', map_set_map_length, zipWith_set_map_length, List.length_zipWith, hplen, hvlen2, min_self, hc1, eq_self_iff_true, and_true, true_and, and_self], rfl, rfl⟩
    simp only [if_pos h15]
    by_cases h16 : p + 12 + 4 + 8 + 8 + 72 + 4 + 4 + 8 + 48 + 4 + 8 + 8 + 8 + 8 + 8 + 20 + 4 + 4 * nb + 8 + 4 * nb + 8 + 4 * nb + 4 + 4 + 4 * nb + 8 + 4 * nb ≤ r.fileBytes.length
    case neg =>
      simp only [if_neg h16]
      exact Or.inr ⟨_, _, _, rfl, rfl, by simp only [wfTs, Bool.and_eq_true, beq_iff_eq, hpos, hvel, hvlen, hcell, hpt, hptlen, decodeF64s_length, decodeF32s_length, Option.map_some', map_set_map_length, zipWith_set_map_length, List.length_zipWith, hplen, hvlen2, min_self, hc1, eq_self_iff_true, and_true, true_and, and_self], rfl, rfl⟩
    simp only [if_pos h16]
    by_cases h17 : p + 12 + 4 + 8 + 8 + 72 + 4 + 4 + 8 + 48 + 4 + 8 + 8 + 8 + 8 + 8 + 20 + 4 + 4 * nb + 8 + 4 * nb + 8 + 4 * nb + 4 + 4 + 4 * nb + 8 + 4 * nb + 8 + 4 * nb ≤ r.fileBytes.length
    case neg =>
      simp only [if_neg h17]
      exact Or.inr ⟨_, _, _, rfl, rfl, by simp only [wfTs, Bool.and_eq_true, beq_iff_eq, hpos, hvel, hvlen, hcell, hpt, hptlen, decodeF64s_length, decodeF32s_length, Option.map_some', map_set_map_length, zipWith_set_map_length, List.length_zipWith, hplen, hvlen2, min_self, hc1, eq_self_iff_true, and_true, true_and, and_self], rfl, rfl⟩
    simp only [if_pos h17]
    -- success leaf
    refine Or.inl ⟨_, rfl, ?_⟩
    by_cases hcv : r.convert_units = true
    · simp only [if_pos hcv, applyRaw, assembleCols]
      simp only [decodeF32s_length, if_pos hc1, setChain3, hpos, hvlen, hplen,
        hvlen2, hc1, min_self, eq_self_iff_true, if_true, and_self]
    · simp only [if_neg hcv, applyRaw, assembleCols]
      simp only [decodeF32s_length, if_pos hc1, setChain3, hpos, hvlen, hplen,
        hvlen2, hc1, min_self, eq_self_iff_true, if_true, and_self]
  by_cases hc2 : nb = 1
  · -- length-1 broadcast in every block
    simp only [if_neg hc1, if_pos hc2, if_pos (Or.inr hc2), List.length_zipWith,
      List.length_map, decodeF32s_length, hplen, hvlen2]
    by_cases h13 : p + 12 + 4 + 8 + 8 + 72 + 4 + 4 + 8 + 48 + 4 + 8 + 8 + 8 + 8 + 8 + 20 + 4 + 4 * nb + 8 + 4 * nb ≤ r.fileBytes.length
    case neg =>
      simp only [if_neg h13]
      exact Or.inr ⟨_, _, _, rfl, rfl, by simp only [wfTs, Bool.and_eq_true, beq_iff_eq, hpos, hvel, hvlen, hcell, hpt, hptlen, decodeF64s_length, decodeF32s_length, Option.map_some', map_set_map_length, zipWith_set_map_length, List.length_zipWith, hplen, hvlen2, min_self, hc2, eq_self_iff_true, and_true, true_and, and_self], rfl, rfl⟩
    simp only [if_pos h13]
    by_cases h14 : p + 12 + 4 + 8 + 8 + 72 + 4 + 4 + 8 + 48 + 4 + 8 + 8 + 8 + 8 + 8 + 20 + 4 + 4 * nb + 8 + 4 * nb + 8 + 4 * nb ≤ r.fileBytes.length
    case neg =>
      simp only [if_neg h14]
      exact Or.inr ⟨_, _, _, rfl, rfl, by simp only [wfTs, Bool.and_eq_true, beq_iff_eq, hpos, hvel, hvlen, hcell, hpt, hptlen, decodeF64s_length, decodeF32s_length, Option.map_some', map_set_map_length, zipWith_set_map_length, List.length_zipWith, hplen, hvlen2, min_self, hc2, eq_self_iff_true, and_true, true_and, and_self], rfl, rfl⟩
    simp only [if_pos h14]
    by_cases h15 : p + 12 + 4 + 8 + 8 + 72 + 4 + 4 + 8 + 48 + 4 + 8 + 8 + 8 + 8 + 8 + 20 + 4 + 4 * nb + 8 + 4 * nb + 8 + 4 * nb + 4 + 4 + 4 * nb ≤ r.fileBytes.length
    case neg =>
      simp only [if_neg h15]
      exact Or.inr ⟨_, _, _, rfl, rfl, by simp only [wfTs, Bool.and_eq_true, beq_iff_eq, hpos, hvel, hvlen, hcell, hpt, hptlen, decodeF64s_length, decodeF32s_length, Option.map_some', map_set_map_length, zipWith_set_map_length, List.length_zipWith, hplen, hvlen2, min_self, hc2, eq_self_iff_true, and_true, true_and, and_self], rfl, rfl⟩
    simp only [if_pos h15]
    by_cases h16 : p + 12 + 4 + 8 + 8 + 72 + 4 + 4 + 8 + 48 + 4 + 8 + 8 + 8 + 8 + 8 + 20 + 4 + 4 * nb + 8 + 4 * nb + 8 + 4 * nb + 4 + 4 + 4 * nb + 8 + 4 * nb ≤ r.fileBytes.length
    case neg =>
      simp only [if_neg h16]
      exact Or.inr ⟨_, _, _, rfl, rfl, by simp only [wfTs, Bool.and_eq_true, beq_iff_eq, hpos, hvel, hvlen, hcell, hpt, hptlen, decodeF64s_length, decodeF32s_length, Option.map_some', map_set_map_length, zipWith_set_map_length, List.length_zipWith, hplen, hvlen2, min_self, hc2, eq_self_iff_true, and_true, true_and, and_self], rfl, rfl⟩
    simp only [if_pos h16]
    by_cases h17 : p + 12 + 4 + 8 + 8 + 72 + 4 + 4 + 8 + 48 + 4 + 8 + 8 + 8 + 8 + 8 + 20 + 4 + 4 * nb + 8 + 4 * nb + 8 + 4 * nb + 4 + 4 + 4 * nb + 8 + 4 * nb + 8 + 4 * nb ≤ r.fileBytes.length
    case neg =>
      simp only [if_neg h17]
      exact Or.inr ⟨_, _, _, rfl, rfl, by simp only [wfTs, Bool.and_eq_true, beq_iff_eq, hpos, hvel, hvlen, hcell, hpt, hptlen, decodeF64s_length, decodeF32s_length, Option.map_some', map_set_map_length, zipWith_set_map_length, List.length_zipWith, hplen, hvlen2, min_self, hc2, eq_self_iff_true, and_true, true_and, and_self], rfl, rfl⟩
    simp only [if_pos h17]
    -- success leaf (broadcast)
    refine Or.inl ⟨_, rfl, ?_⟩
    by_cases hcv : r.convert_units = true
    · simp only [if_pos hcv, applyRaw, assembleCols]
      simp only [decodeF32s_length, if_neg hc1, setBroadcast3, hpos, hvlen,
        hplen, hvlen2, eq_self_iff_true, if_true, and_self]
    · simp only [if_neg hcv, applyRaw, assembleCols]
      simp only [decodeF32s_length, if_neg hc1, setBroadcast3, hpos, hvlen,
        hplen, hvlen2, eq_self_iff_true, if_true, and_self]
  · -- mismatched length: ValueError
    have hor : ¬ (nb = n ∨ nb = 1) := by tauto
    simp only [if_neg hc1, if_neg hc2, if_neg hor]
    exact Or.inr ⟨_, _, _, rfl, rfl, by simp only [wfTs, Bool.and_eq_true, beq_iff_eq, hpos, hvel, hvlen, hcell, hpt, hptlen, decodeF64s_length, Option.map_some', eq_self_iff_true, and_true, true_and, and_self], rfl, rfl⟩

/-- The snapshot reset performed by `open_trajectory` (lines 366-371). -/
def resetTs (t : Timestep) : Timestep :=
  { t with status := some 1, frame := 0, step := some 0, time := some 0 }

theorem wfTs_resetTs (t : Timestep) (n : Nat) (h : wfTs t n = true) :
    wfTs (resetTs t) n = true := by
  simpa [wfTs, resetTs] using h

theorem reopen_spec (r : Reader) (hex : r.fileExists = true) :
    Reader.reopen r =
      (.ok (), { r with trzfile := some 100, ts := resetTs r.ts }) := by
  simp [Reader.reopen, Reader.close, Reader.open_trajectory,
    Reader.readTRZHeader, Reader.fseek, hex, resetTs]

theorem length_comp_map (f : Int → Int) :
    (List.length ∘ List.map f) = (List.length : List Int → Nat) := by
  funext l
  simp

/-- Decoding a frame into a well-shaped snapshot yields a well-shaped
snapshot. -/
theorem wfTs_applyRaw (n : Nat) (t : Timestep) (raw : RawFrame) (conv : Bool)
    (hx : raw.xs.length = raw.natoms.toNat) (hy : raw.ys.length = raw.natoms.toNat)
    (hz : raw.zs.length = raw.natoms.toNat)
    (hvx : raw.vxs.length = raw.natoms.toNat) (hvy : raw.vys.length = raw.natoms.toNat)
    (hvz : raw.vzs.length = raw.natoms.toNat)
    (hcell : raw.unitcell.length = 9) (hpt : raw.ptensor.length = 6) :
    wfTs (applyRaw n t raw conv) n = true := by
  have hyx : raw.ys.length = raw.xs.length := by rw [hy, hx]
  have hzx : raw.zs.length = raw.xs.length := by rw [hz, hx]
  have hvyx : raw.vys.length = raw.vxs.length := by rw [hvy, hvx]
  have hvzx : raw.vzs.length = raw.vxs.length := by rw [hvz, hvx]
  have hvxx : raw.vxs.length = raw.xs.length := by rw [hvx, hx]
  by_cases hxl : raw.xs.length = n
  · simp only [wfTs, applyRaw, assembleCols, if_pos hxl, if_pos (hvxx.trans hxl),
      Bool.and_eq_true, beq_iff_eq]
    cases conv <;>
      simp [List.map_map, length_comp_map, zip3Rows_map_length _ _ _ hyx hzx,
        zip3Rows_map_length _ _ _ hvyx hvzx, hxl, hvxx.trans hxl, hcell, hpt]
  · simp only [wfTs, applyRaw, assembleCols, if_neg hxl,
      if_neg (fun hh => hxl (hvxx.symm.trans hh)), Bool.and_eq_true, beq_iff_eq]
    cases conv <;>
      simp [List.map_map, length_comp_map, List.map_replicate, hcell, hpt]

/-- `rewind` on any state over a file whose first frame decodes: reopen to
position 100, reset the snapshot, decode frame 1. -/
theorem rewind_spec (r : Reader) (n : Nat) (raw1 : RawFrame)
    (hex : r.fileExists = true) (hWF : wfTs r.ts n = true)
    (hfirst : decodeFrame r.fileBytes n 100 = .ok raw1) :
    Reader.rewind r =
      (.ok (applyRaw n (resetTs r.ts) raw1 r.convert_units),
       { r with trzfile := some raw1.endPos,
                ts := applyRaw n (resetTs r.ts) raw1 r.convert_units }) := by
  unfold Reader.rewind
  rw [reopen_spec r hex]
  show Reader.next { r with trzfile := some 100, ts := resetTs r.ts } = _
  unfold Reader.next
  have hWF2 : wfTs ({ r with trzfile := some 100, ts := resetTs r.ts } : Reader).ts n = true :=
    wfTs_resetTs r.ts n hWF
  rcases advance_spec { r with trzfile := some 100, ts := resetTs r.ts } n 100 rfl hWF2 with
    ⟨raw, hdec, hrun⟩ | ⟨e, q, t, hdec, hrun, hwf, hfr, hna⟩
  · simp only [] at hdec
    rw [hfirst] at hdec
    injection hdec with hr
    subst hr
    rw [hrun]
  · simp only [] at hdec
    rw [hfirst] at hdec
    exact Except.noConfusion hdec

/-- Pure scan of the whole stream from position `p`: the consecutive
decodable frame records, ending cleanly at the end-of-stream short read. -/
def frameScan (bytes : List Nat) (n : Nat) : Nat → Nat → Except PErr (List RawFrame)
  | 0, _ => .error .diverge
  | fuel + 1, p =>
    match decodeFrame bytes n p with
    | .ok raw =>
      match frameScan bytes n fuel raw.endPos with
      | .ok rest => .ok (raw :: rest)
      | .error e => .error e
    | .error e => if e = .eof then .ok [] else .error e

/-- The expected frame indices of successively yielded snapshots, starting
from frame counter `start`. -/
def frameIdxList (start : Int) : Nat → List Int
  | 0 => []
  | m + 1 => (start + 1) :: frameIdxList (start + 1) m

theorem frameIdxList_length (start : Int) (m : Nat) :
    (frameIdxList start m).length = m := by
  induction m generalizing start with
  | zero => rfl
  | succ m2 ih => simp [frameIdxList, ih]

/-- The k-th entry (0-based) of the expected frame-index list is
`start + k + 1`. -/
theorem frameIdxList_get (start : Int) (m k : Nat) (hk : k < m) :
    (frameIdxList start m).getD k 0 = start + (k : Int) + 1 := by
  induction m generalizing start k with
  | zero => omega
  | succ m2 ih =>
    cases k with
    | zero => simp [frameIdxList]
    | succ k2 =>
      simp only [frameIdxList, List.getD_cons_succ]
      rw [ih (start + 1) k2 (by omega)]
      push_cast
      ring

theorem iterLoop_spec (fuel : Nat) (r : Reader) (n p : Nat)
    (frames : List RawFrame) (raw1 : RawFrame)
    (hp : r.trzfile = some p) (hWF : wfTs r.ts n = true)
    (hex : r.fileExists = true)
    (hscan : frameScan r.fileBytes n fuel p = .ok frames)
    (hfirst : decodeFrame r.fileBytes n 100 = .ok raw1) :
    ∃ lst r', Reader.iterLoop fuel r = (.ok lst, r') ∧
      lst.length = frames.length ∧
      lst.map Timestep.frame = frameIdxList r.ts.frame frames.length := by
  induction fuel generalizing r p frames with
  | zero => simp [frameScan] at hscan
  | succ f ih =>
    unfold frameScan at hscan
    unfold Reader.iterLoop
    rcases advance_spec r n p hp hWF with ⟨raw, hdec, hrun⟩ |
      ⟨e, q, t, hdec, hrun, hwf, hfr, hna⟩
    · rw [hdec] at hscan
      simp only [] at hscan
      rw [hrun]
      simp only []
      obtain ⟨sx, sy, sz, svx, svy, svz, sor, scell, spt, spos, sbnd⟩ :=
        decodeFrame_ok_shape _ _ _ _ hdec
      have hWF2 : wfTs (applyRaw n r.ts raw r.convert_units) n = true :=
        wfTs_applyRaw n r.ts raw r.convert_units sx sy sz svx svy svz scell spt
      cases hrest : frameScan r.fileBytes n f raw.endPos with
      | error e =>
        rw [hrest] at hscan
        simp only [] at hscan
        exact Except.noConfusion hscan
      | ok rest =>
        rw [hrest] at hscan
        simp only [] at hscan
        injection hscan with hfr2
        subst hfr2
        obtain ⟨lst, r2, hloop, hlen, hmap⟩ :=
          ih { r with trzfile := some raw.endPos, ts := applyRaw n r.ts raw r.convert_units }
            raw.endPos rest rfl hWF2 hex hrest hfirst
        rw [hloop]
        refine ⟨applyRaw n r.ts raw r.convert_units :: lst, r2, rfl, by simp [hlen], ?_⟩
        have hfr2 : (applyRaw n r.ts raw r.convert_units).frame = r.ts.frame + 1 := by
          simp [applyRaw]
        simp only [List.map_cons, List.length_cons, frameIdxList, hmap, hfr2,
          List.cons.injEq]
    · rw [hdec] at hscan
      simp only [] at hscan
      by_cases he : e = .eof
      · subst he
        rw [if_pos rfl] at hscan
        injection hscan with hfr2
        subst hfr2
        rw [hrun]
        have hrw := rewind_spec { r with trzfile := some q, ts := t } n raw1
          hex hwf hfirst
        simp only [PErr.isIOError, eq_self_iff_true, if_true]
        rw [hrw]
        exact ⟨[], _, rfl, rfl, rfl⟩
      · rw [if_neg he] at hscan
        exact Except.noConfusion hscan

theorem numframesLoop_spec (fuel : Nat) (acc : Nat) (r : Reader) (n p : Nat)
    (frames : List RawFrame) (raw1 : RawFrame)
    (hp : r.trzfile = some p) (hWF : wfTs r.ts n = true)
    (hex : r.fileExists = true)
    (hscan : frameScan r.fileBytes n fuel p = .ok frames)
    (hfirst : decodeFrame r.fileBytes n 100 = .ok raw1) :
    ∃ r', Reader.readTRZNumframesLoop fuel acc r = (.ok (acc + frames.length), r') := by
  induction fuel generalizing acc r p frames with
  | zero => simp [frameScan] at hscan
  | succ f ih =>
    unfold frameScan at hscan
    unfold Reader.readTRZNumframesLoop
    rcases advance_spec r n p hp hWF with ⟨raw, hdec, hrun⟩ |
      ⟨e, q, t, hdec, hrun, hwf, hfr, hna⟩
    · rw [hdec] at hscan
      simp only [] at hscan
      rw [hrun]
      simp only []
      obtain ⟨sx, sy, sz, svx, svy, svz, sor, scell, spt, spos, sbnd⟩ :=
        decodeFrame_ok_shape _ _ _ _ hdec
      have hWF2 : wfTs (applyRaw n r.ts raw r.convert_units) n = true :=
        wfTs_applyRaw n r.ts raw r.convert_units sx sy sz svx svy svz scell spt
      cases hrest : frameScan r.fileBytes n f raw.endPos with
      | error e =>
        rw [hrest] at hscan
        simp only [] at hscan
        exact Except.noConfusion hscan
      | ok rest =>
        rw [hrest] at hscan
        simp only [] at hscan
        injection hscan with hfr2
        subst hfr2
        obtain ⟨r2, hloop⟩ :=
          ih (acc + 1)
            { r with trzfile := some raw.endPos, ts := applyRaw n r.ts raw r.convert_units }
            raw.endPos rest rfl hWF2 hex hrest hfirst
        have hlen2 : acc + (raw :: rest).length = acc + 1 + rest.length := by
          rw [List.length_cons]
          omega
        rw [hloop]
        exact ⟨r2, by rw [hlen2]⟩
    · rw [hdec] at hscan
      simp only [] at hscan
      by_cases he : e = .eof
      · subst he
        rw [if_pos rfl] at hscan
        injection hscan with hfr2
        subst hfr2
        rw [hrun]
        have hrw := rewind_spec { r with trzfile := some q, ts := t } n raw1
          hex hwf hfirst
        simp only [PErr.isIOError, eq_self_iff_true, if_true]
        rw [hrw]
        simp only [List.length_nil, Nat.add_zero]
        exact ⟨_, rfl⟩
      · rw [if_neg he] at hscan
        exact Except.noConfusion hscan

/-! Concrete fixtures used by witnesses and counterexamples: a well-formed
two-frame TRZ file for one atom (decoded times 2 and 5), and truncations
of it. -/

/-- A well-formed two-frame one-atom TRZ file: 100-byte header, then two
304-byte frame records; each frame's declared atom count is 1 and the
decoded times are 2 (frame 1) and 5 (frame 2). -/
def tfBytes : List Nat :=
  (List.replicate 112 0) ++ [1, 0, 0, 0] ++ [2, 0, 0, 0, 0, 0, 0, 0] ++
    List.replicate 280 0 ++
  (List.replicate 12 0) ++ [1, 0, 0, 0] ++ [5, 0, 0, 0, 0, 0, 0, 0] ++
    List.replicate 280 0

/-- `tfBytes` truncated inside frame 2's velocity block. -/
def truncBytes : List Nat := tfBytes.take 690

/-- A one-frame file truncated inside its (sole) velocity block. -/
def oneTruncBytes : List Nat := tfBytes.take 390

/-- The zero-initialized one-atom snapshot (`Timestep(1)`). -/
def sampleTs : Timestep :=
  { frame := 0
    numatoms := 1
    time := some 0
    pressure := some 0
    pressure_tensor := some (List.replicate 6 0)
    total_energy := some 0
    potential_energy := some 0
    kinetic_energy := some 0
    temperature := some 0
    unitcell := List.replicate 9 0
    pos := [[0, 0, 0]]
    velocities := some [[0, 0, 0]]
    status := none
    step := none }

/-- A reader over the given bytes with a one-atom snapshot, handle state
and existence flag as given. -/
def sampleReader (bytes : List Nat) (ex : Bool) (tf : Option Nat) : Reader :=
  { fileBytes := bytes
    fileExists := ex
    convert_units := false
    trzfile := tf
    numatomsC := some 1
    numframesC := none
    deltaC := none
    ts := sampleTs }

/-! Claim theorems. -/

/-- Reader over empty content whose path no longer exists (the file was
deleted after opening): every metadata probe hits an `IOError`. -/
def goneReader : Reader :=
  { fileBytes := []
    fileExists := false
    convert_units := false
    trzfile := some 0
    numatomsC := none
    numframesC := none
    deltaC := none
    ts := sampleTs }

/-- Fallback record used to extract concrete decode results. -/
def rfDefault : RawFrame :=
  { natoms := 0, time := 0, unitcell := [], pressure := 0, ptensor := [],
    etot := 0, epot := 0, ekin := 0, temper := 0, xs := [], ys := [], zs := [],
    vxs := [], vys := [], vzs := [], endPos := 0 }

/-- C8: at a reader whose file disappeared after opening, the `numatoms`
and `numframes` metadata queries convert the `NotFound` failure of their
probe into the default 0, but `delta` propagates `NotFound` out of its
`finally`-clause rewind instead of returning 0, contradicting both the
claim and its own docstring ("Returns 0 in case of IOError"). -/
theorem C8_thm :
    (Reader.numatoms goneReader).1 = .ok 0 ∧
    (Reader.numframes goneReader).1 = .ok 0 ∧
    (Reader.delta goneReader).1 = .error .notfound := by decide

set_option maxRecDepth 100000 in
/-- C2 counterexample: on a one-frame file truncated inside its velocity
block, `advance` fails with `EndOfStream` as the claim says, but the
promised recovery fails too: `rewind` itself re-reads the truncated frame
and fails with `EndOfStream` instead of succeeding and yielding frame 1. -/
theorem C2_cex :
    (Reader.readNextTimestep (sampleReader oneTruncBytes true (some 100))).1 = .error .eof ∧
    (Reader.rewind
       ((Reader.readNextTimestep (sampleReader oneTruncBytes true (some 100))).2)).1 =
      .error .eof := by decide

/-- C2 amended: any short read while decoding one frame makes `advance`
fail with `EndOfStream`; after such a failure on a truncated file that
still contains a complete first frame, `rewind()` succeeds and leaves the
current snapshot holding frame 1's data again (`rewind` itself performs
the advance; positions and velocities equal what decoding frame 1 into
any snapshot yields, and the frame counter is 1). -/
theorem C2_thm (r : Reader) (n p : Nat) (raw1 : RawFrame)
    (hp : r.trzfile = some p) (hWF : wfTs r.ts n = true)
    (hex : r.fileExists = true)
    (hfail : decodeFrame r.fileBytes n p = .error .eof)
    (hfirst : decodeFrame r.fileBytes n 100 = .ok raw1) :
    (Reader.readNextTimestep r).1 = .error .eof ∧
    ∃ tF rF, Reader.rewind (Reader.readNextTimestep r).2 = (.ok tF, rF) ∧
      rF.ts = tF ∧ tF.frame = 1 ∧ tF.time = some raw1.time ∧
      tF.pos = (applyRaw n r.ts raw1 r.convert_units).pos ∧
      tF.velocities = (applyRaw n r.ts raw1 r.convert_units).velocities := by
  rcases advance_spec r n p hp hWF with ⟨raw, hdec, hrun⟩ |
    ⟨e, q, t, hdec, hrun, hwf, hfr, hna⟩
  · rw [hdec] at hfail
    exact Except.noConfusion hfail
  · rw [hdec] at hfail
    injection hfail with he
    subst he
    rw [hrun]
    refine ⟨rfl, ?_⟩
    have hrw := rewind_spec { r with trzfile := some q, ts := t } n raw1 hex hwf hfirst
    exact ⟨_, _, hrw, rfl, by simp [applyRaw, resetTs], by simp [applyRaw], rfl, rfl⟩

/-- C3: on a freshly constructed reader over a trajectory with at least
two frames (snapshot holding frame 1, handle at the end of frame 1's
record), `delta` returns the difference between the time fields of frame 2
and frame 1, caches it (a second call returns the same value without
changing state), and leaves the decoder rewound onto frame 1; and on a
reader positioned at the end of the stream (advancing fails), `delta`
returns 0. -/
theorem C3_thm (r r2 : Reader) (n n2 p2 : Nat) (raw1 raw2 raw3 : RawFrame)
    (t02 : Int)
    (hWF : wfTs r.ts n = true) (hex : r.fileExists = true)
    (hdC : r.deltaC = none)
    (hfirst : decodeFrame r.fileBytes n 100 = .ok raw1)
    (hp : r.trzfile = some raw1.endPos)
    (ht0 : r.ts.time = some raw1.time)
    (hsecond : decodeFrame r.fileBytes n raw1.endPos = .ok raw2)
    (hWF2 : wfTs r2.ts n2 = true) (hex2 : r2.fileExists = true)
    (hdC2 : r2.deltaC = none)
    (hfirst2 : decodeFrame r2.fileBytes n2 100 = .ok raw3)
    (hp2 : r2.trzfile = some p2) (ht02 : r2.ts.time = some t02)
    (hfail2 : decodeFrame r2.fileBytes n2 p2 = .error .eof) :
    (∃ rF, Reader.delta r = (.ok (raw2.time - raw1.time), rF) ∧
       rF.deltaC = some (raw2.time - raw1.time) ∧
       rF.ts.frame = 1 ∧ rF.ts.time = some raw1.time ∧
       Reader.delta rF = (.ok (raw2.time - raw1.time), rF)) ∧
    (Reader.delta r2).1 = .ok 0 := by
  constructor
  · rcases advance_spec r n raw1.endPos hp hWF with ⟨raw, hdec, hrun⟩ |
      ⟨e, q, t, hdec, hrun, hwf, hfr, hna⟩
    swap
    · rw [hdec] at hsecond
      exact Except.noConfusion hsecond
    rw [hdec] at hsecond
    injection hsecond with hr2
    subst raw
    obtain ⟨sx, sy, sz, svx, svy, svz, sor, scell, spt, spos, sbnd⟩ :=
      decodeFrame_ok_shape _ _ _ _ hdec
    have hWF3 : wfTs (applyRaw n r.ts raw2 r.convert_units) n = true :=
      wfTs_applyRaw n r.ts raw2 r.convert_units sx sy sz svx svy svz scell spt
    have hrw := rewind_spec
      { r with trzfile := some raw2.endPos,
               ts := applyRaw n r.ts raw2 r.convert_units,
               deltaC := some (raw2.time - raw1.time) } n raw1 hex hWF3 hfirst
    have htime2 : (applyRaw n r.ts raw2 r.convert_units).time = some raw2.time := by
      simp [applyRaw]
    unfold Reader.delta
    rw [hdC]
    simp only [ht0]
    unfold Reader.next
    rw [hrun]
    simp only [htime2]
    simp only [] at hrw ⊢
    rw [hrw]
    refine ⟨_, rfl, rfl, by simp [applyRaw, resetTs], by simp [applyRaw], ?_⟩
    rfl
  · rcases advance_spec r2 n2 p2 hp2 hWF2 with ⟨raw, hdec, hrun⟩ |
      ⟨e, q, t, hdec, hrun, hwf, hfr, hna⟩
    · rw [hdec] at hfail2
      exact Except.noConfusion hfail2
    rw [hdec] at hfail2
    injection hfail2 with he
    subst he
    have hrw := rewind_spec { r2 with trzfile := some q, ts := t } n2 raw3
      hex2 hwf hfirst2
    unfold Reader.delta
    rw [hdC2]
    simp only [ht02]
    unfold Reader.next
    rw [hrun]
    simp only [PErr.isIOError, eq_self_iff_true, if_true]
    simp only [] at hrw
    rw [hrw]

/-- C6: the copy constructor produces a full value copy: every snapshot
data field (the twelve attributes assigned by the copy branch of
`Timestep.__init__`: frame, numatoms, time, pressure, pressure tensor,
the three energies, temperature, unit cell, positions, velocities) of
the copy equals the corresponding field of the source snapshot at copy
time, and advancing the decoder afterwards replaces the decoder's snapshot
(its frame counter moves on) while the copy is a separate value that still
holds the old fields. -/
theorem C6_thm (r : Reader) (n p : Nat) (c t2 : Timestep) (r2 : Reader)
    (hp : r.trzfile = some p) (hWF : wfTs r.ts n = true)
    (hc : Timestep.make (.tsArg r.ts) = .ok c)
    (hadv : Reader.readNextTimestep r = (.ok t2, r2)) :
    (c.frame = r.ts.frame ∧ c.numatoms = r.ts.numatoms ∧ c.time = r.ts.time ∧
     c.pressure = r.ts.pressure ∧ c.pressure_tensor = r.ts.pressure_tensor ∧
     c.total_energy = r.ts.total_energy ∧
     c.potential_energy = r.ts.potential_energy ∧
     c.kinetic_energy = r.ts.kinetic_energy ∧
     c.temperature = r.ts.temperature ∧ c.unitcell = r.ts.unitcell ∧
     c.pos = r.ts.pos ∧ c.velocities = r.ts.velocities) ∧
    r2.ts = t2 ∧ t2.frame = r.ts.frame + 1 := by
  constructor
  · unfold Timestep.make at hc
    simp only [] at hc
    split at hc
    · next ti pr pt te pe ke tm ve h1 h2 h3 h4 h5 h6 h7 h8 =>
      injection hc with hcc
      subst hcc
      simp [h1, h2, h3, h4, h5, h6, h7, h8]
    · exact Except.noConfusion hc
  · rcases advance_spec r n p hp hWF with ⟨raw, hdec, hrun⟩ |
      ⟨e, q, t, hdec, hrun, hwf, hfr, hna⟩
    · rw [hrun] at hadv
      have h1 : t2 = applyRaw n r.ts raw r.convert_units := by
        have := congrArg Prod.fst hadv
        simp only [] at this
        injection this with hh
        exact hh.symm
      have h2 :
          r2 = { r with trzfile := some raw.endPos, ts := applyRaw n r.ts raw r.convert_units } := by
        have := congrArg Prod.snd hadv
        simp only [] at this
        exact this.symm
      subst h1
      subst h2
      exact ⟨rfl, by simp [applyRaw]⟩
    · rw [hrun] at hadv
      have := congrArg Prod.fst hadv
      simp only [] at this
      exact Except.noConfusion this

/-- C1: over a valid trajectory (the full scan from the first frame ends
cleanly at end-of-stream, with at least one frame), consuming the lazy
iteration to completion succeeds with no error surfaced, yields exactly as
many snapshots as the `numframes` scan reports, and the k-th yielded
snapshot (0-based) carries frame index k+1 (the yielded frame indices are
`frameIdxList 0 m = [1, 2, ..., m]`; see `frameIdxList_get`). -/
theorem C1_thm (r : Reader) (n : Nat) (frames : List RawFrame) (raw1 : RawFrame)
    (hex : r.fileExists = true) (hWF : wfTs r.ts n = true)
    (hcache : r.numframesC = none)
    (hscan : frameScan r.fileBytes n (r.fileBytes.length + 2) 100 = .ok frames)
    (hfirst : decodeFrame r.fileBytes n 100 = .ok raw1) :
    (∃ lst rEnd, Reader.iterate r = (.ok lst, rEnd) ∧
       lst.length = frames.length ∧
       lst.map Timestep.frame = frameIdxList 0 frames.length) ∧
    (Reader.numframes r).1 = .ok frames.length := by
  constructor
  · have hWF0 : wfTs ({ r.ts with frame := 0 }) n = true := by
      simpa [wfTs] using hWF
    have hro := reopen_spec { r with ts := { r.ts with frame := 0 } } hex
    obtain ⟨lst, rEnd, hloop, hlen, hmap⟩ :=
      iterLoop_spec (r.fileBytes.length + 2)
        { r with trzfile := some 100, ts := resetTs { r.ts with frame := 0 } }
        n 100 frames raw1 rfl (wfTs_resetTs _ n hWF0) hex hscan hfirst
    refine ⟨lst, rEnd, ?_, hlen, by simpa [resetTs] using hmap⟩
    unfold Reader.iterate
    simp only [] at hro ⊢
    rw [hro]
    simpa using hloop
  · have hro := reopen_spec r hex
    obtain ⟨rEnd2, hloop2⟩ :=
      numframesLoop_spec (r.fileBytes.length + 2) 0
        { r with trzfile := some 100, ts := resetTs r.ts }
        n 100 frames raw1 rfl (wfTs_resetTs _ n hWF) hex hscan hfirst
    unfold Reader.numframes Reader.readTRZNumframes
    rw [hcache]
    simp only [] at hro ⊢
    rw [hro]
    simp only []
    rw [hloop2]
    simp

/-! Concrete decode results over the fixture files, extracted by
evaluation, used to instantiate the witnesses. -/

/-- Frame 1 of the two-frame fixture. -/
def tfraw1 : RawFrame := (decodeFrame tfBytes 1 100).toOption.getD rfDefault

/-- Frame 2 of the two-frame fixture. -/
def tfraw2 : RawFrame := (decodeFrame tfBytes 1 tfraw1.endPos).toOption.getD rfDefault

/-- The full scan of the two-frame fixture. -/
def c1frames : List RawFrame :=
  (frameScan tfBytes 1 (tfBytes.length + 2) 100).toOption.getD []

/-- A complete one-frame file (the two-frame fixture cut after frame 1). -/
def oneBytes : List Nat := tfBytes.take 404

/-- Frame 1 of the one-frame file. -/
def oneraw1 : RawFrame := (decodeFrame oneBytes 1 100).toOption.getD rfDefault

/-- Frame 1 of the truncated two-frame fixture. -/
def c2raw1 : RawFrame := (decodeFrame truncBytes 1 100).toOption.getD rfDefault

/-- A freshly constructed reader over the given bytes (one atom, no unit
conversion). -/
def mkD (bytes : List Nat) : Reader :=
  (mkTRZReader bytes true (some 1) false).toOption.getD (sampleReader bytes true none)

/-- Fresh reader over the two-frame fixture. -/
def rTwo : Reader := mkD tfBytes

/-- Fresh reader over the one-frame file. -/
def rOne : Reader := mkD oneBytes

set_option maxRecDepth 1000000 in
/-- C1 witness: the iteration/frame-count agreement at the concrete
two-frame fixture. -/
theorem C1_thm_witness :
    ((sampleReader tfBytes true (some 100)).fileExists = true ∧
     wfTs (sampleReader tfBytes true (some 100)).ts 1 = true ∧
     (sampleReader tfBytes true (some 100)).numframesC = none ∧
     frameScan tfBytes 1 (tfBytes.length + 2) 100 = .ok c1frames ∧
     decodeFrame tfBytes 1 100 = .ok tfraw1) ∧
    ((∃ lst rEnd,
        Reader.iterate (sampleReader tfBytes true (some 100)) = (.ok lst, rEnd) ∧
        lst.length = c1frames.length ∧
        lst.map Timestep.frame = frameIdxList 0 c1frames.length) ∧
     (Reader.numframes (sampleReader tfBytes true (some 100))).1 = .ok c1frames.length) :=
  ⟨⟨rfl, by decide, rfl, by decide, by decide⟩,
   C1_thm (sampleReader tfBytes true (some 100)) 1 c1frames tfraw1 rfl (by decide)
     rfl (by decide) (by decide)⟩

set_option maxRecDepth 1000000 in
/-- C2 witness: recovery after a short read at the concrete truncated
two-frame fixture (frame 1 intact, frame 2's velocities cut). -/
theorem C2_thm_witness :
    ((sampleReader truncBytes true (some 404)).trzfile = some 404 ∧
     wfTs (sampleReader truncBytes true (some 404)).ts 1 = true ∧
     (sampleReader truncBytes true (some 404)).fileExists = true ∧
     decodeFrame truncBytes 1 404 = .error .eof ∧
     decodeFrame truncBytes 1 100 = .ok c2raw1) ∧
    ((Reader.readNextTimestep (sampleReader truncBytes true (some 404))).1 = .error .eof ∧
     ∃ tF rF,
       Reader.rewind (Reader.readNextTimestep (sampleReader truncBytes true (some 404))).2 =
         (.ok tF, rF) ∧
       rF.ts = tF ∧ tF.frame = 1 ∧ tF.time = some c2raw1.time ∧
       tF.pos = (applyRaw 1 (sampleReader truncBytes true (some 404)).ts c2raw1
         (sampleReader truncBytes true (some 404)).convert_units).pos ∧
       tF.velocities = (applyRaw 1 (sampleReader truncBytes true (some 404)).ts c2raw1
         (sampleReader truncBytes true (some 404)).convert_units).velocities) :=
  ⟨⟨rfl, by decide, rfl, by decide, by decide⟩,
   C2_thm (sampleReader truncBytes true (some 404)) 1 404 c2raw1 rfl (by decide)
     rfl (by decide) (by decide)⟩

set_option maxRecDepth 1000000 in
/-- C3 witness: the time-delta behaviour at the concrete two-frame fixture
(times 2 and 5, delta 3) and the end-of-stream case at the one-frame
file. -/
theorem C3_thm_witness :
    ((wfTs rTwo.ts 1 = true) ∧ rTwo.fileExists = true ∧ rTwo.deltaC = none ∧
     decodeFrame rTwo.fileBytes 1 100 = .ok tfraw1 ∧
     rTwo.trzfile = some tfraw1.endPos ∧
     rTwo.ts.time = some tfraw1.time ∧
     decodeFrame rTwo.fileBytes 1 tfraw1.endPos = .ok tfraw2 ∧
     wfTs rOne.ts 1 = true ∧ rOne.fileExists = true ∧ rOne.deltaC = none ∧
     decodeFrame rOne.fileBytes 1 100 = .ok oneraw1 ∧
     rOne.trzfile = some 404 ∧ rOne.ts.time = some 2 ∧
     decodeFrame rOne.fileBytes 1 404 = .error .eof) ∧
    ((∃ rF, Reader.delta rTwo = (.ok (tfraw2.time - tfraw1.time), rF) ∧
        rF.deltaC = some (tfraw2.time - tfraw1.time) ∧
        rF.ts.frame = 1 ∧ rF.ts.time = some tfraw1.time ∧
        Reader.delta rF = (.ok (tfraw2.time - tfraw1.time), rF)) ∧
     (Reader.delta rOne).1 = .ok 0) :=
  ⟨⟨by decide, by decide, by decide, by decide, by decide, by decide, by decide,
    by decide, by decide, by decide, by decide, by decide, by decide, by decide⟩,
   C3_thm rTwo rOne 1 1 404 tfraw1 tfraw2 oneraw1 2 (by decide) (by decide)
     (by decide) (by decide) (by decide) (by decide) (by decide) (by decide)
     (by decide) (by decide) (by decide) (by decide) (by decide) (by decide)⟩

set_option maxRecDepth 1000000 in
/-- C6 witness: deep copy then advance at the concrete two-frame
fixture. -/
theorem C6_thm_witness :
    ((sampleReader tfBytes true (some 100)).trzfile = some 100 ∧
     wfTs (sampleReader tfBytes true (some 100)).ts 1 = true ∧
     Timestep.make (.tsArg (sampleReader tfBytes true (some 100)).ts) =
       .ok ((Timestep.make (.tsArg sampleTs)).toOption.getD sampleTs) ∧
     Reader.readNextTimestep (sampleReader tfBytes true (some 100)) =
       (.ok ((Reader.readNextTimestep (sampleReader tfBytes true (some 100))).1.toOption.getD sampleTs),
        (Reader.readNextTimestep (sampleReader tfBytes true (some 100))).2)) ∧
    ((((Timestep.make (.tsArg sampleTs)).toOption.getD sampleTs).frame =
        (sampleReader tfBytes true (some 100)).ts.frame ∧
      ((Timestep.make (.tsArg sampleTs)).toOption.getD sampleTs).numatoms =
        (sampleReader tfBytes true (some 100)).ts.numatoms ∧
      ((Timestep.make (.tsArg sampleTs)).toOption.getD sampleTs).time =
        (sampleReader tfBytes true (some 100)).ts.time ∧
      ((Timestep.make (.tsArg sampleTs)).toOption.getD sampleTs).pressure =
        (sampleReader tfBytes true (some 100)).ts.pressure ∧
      ((Timestep.make (.tsArg sampleTs)).toOption.getD sampleTs).pressure_tensor =
        (sampleReader tfBytes true (some 100)).ts.pressure_tensor ∧
      ((Timestep.make (.tsArg sampleTs)).toOption.getD sampleTs).total_energy =
        (sampleReader tfBytes true (some 100)).ts.total_energy ∧
      ((Timestep.make (.tsArg sampleTs)).toOption.getD sampleTs).potential_energy =
        (sampleReader tfBytes true (some 100)).ts.potential_energy ∧
      ((Timestep.make (.tsArg sampleTs)).toOption.getD sampleTs).kinetic_energy =
        (sampleReader tfBytes true (some 100)).ts.kinetic_energy ∧
      ((Timestep.make (.tsArg sampleTs)).toOption.getD sampleTs).temperature =
        (sampleReader tfBytes true (some 100)).ts.temperature ∧
      ((Timestep.make (.tsArg sampleTs)).toOption.getD sampleTs).unitcell =
        (sampleReader tfBytes true (some 100)).ts.unitcell ∧
      ((Timestep.make (.tsArg sampleTs)).toOption.getD sampleTs).pos =
        (sampleReader tfBytes true (some 100)).ts.pos ∧
      ((Timestep.make (.tsArg sampleTs)).toOption.getD sampleTs).velocities =
        (sampleReader tfBytes true (some 100)).ts.velocities) ∧
     (Reader.readNextTimestep (sampleReader tfBytes true (some 100))).2.ts =
       (Reader.readNextTimestep (sampleReader tfBytes true (some 100))).1.toOption.getD sampleTs ∧
     ((Reader.readNextTimestep (sampleReader tfBytes true (some 100))).1.toOption.getD sampleTs).frame =
       (sampleReader tfBytes true (some 100)).ts.frame + 1) :=
  ⟨⟨rfl, by decide, by decide, by decide⟩,
   C6_thm (sampleReader tfBytes true (some 100)) 1 100
     ((Timestep.make (.tsArg sampleTs)).toOption.getD sampleTs)
     ((Reader.readNextTimestep (sampleReader tfBytes true (some 100))).1.toOption.getD sampleTs)
     ((Reader.readNextTimestep (sampleReader tfBytes true (some 100))).2)
     rfl (by decide) (by decide) (by decide)⟩

/-- C10: constructing a `Timestep` from an argument that is neither an
integer, nor another `Timestep`, nor a numpy array fails with the
`ValueError` "Cannot create an empty Timestep"; there is no default
construction path. -/
theorem C10_thm :
    Timestep.make .otherArg = .error (.valueErr "Cannot create an empty Timestep") := rfl

/-- C7: `dimensions` partitions the 9-entry unit cell into its first,
middle and last three entries and returns their `triclinic_box`; it is a
pure function of `unitcell` alone (snapshots agreeing on `unitcell` get
equal boxes, and no snapshot field is touched since it returns only the
derived value). -/
theorem C7_thm (t u : Timestep) (h : t.unitcell = u.unitcell) :
    t.dimensions =
      triclinic_box (t.unitcell.take 3) ((t.unitcell.drop 3).take 3)
        ((t.unitcell.drop 6).take 3) ∧
    t.dimensions = u.dimensions := by
  constructor
  · rfl
  · unfold Timestep.dimensions
    rw [h]

/-- C7 witness: the slicing and unitcell-dependence at a concrete
snapshot pair. -/
theorem C7_thm_witness :
    sampleTs.unitcell = ({ sampleTs with frame := 7 } : Timestep).unitcell ∧
    (sampleTs.dimensions =
      triclinic_box (sampleTs.unitcell.take 3) ((sampleTs.unitcell.drop 3).take 3)
        ((sampleTs.unitcell.drop 6).take 3) ∧
     sampleTs.dimensions = ({ sampleTs with frame := 7 } : Timestep).dimensions) :=
  ⟨rfl, C7_thm sampleTs { sampleTs with frame := 7 } rfl⟩

/-- C5 counterexample: the claim says construction from an atom-count
argument fails whenever the argument is not a positive integer, but
`Timestep(0)` succeeds (numpy happily allocates zero-sized arrays),
returning an empty zero-atom snapshot. -/
theorem C5_cex :
    Timestep.make (.intArg 0) =
      .ok { frame := 0
            numatoms := 0
            time := some 0
            pressure := some 0
            pressure_tensor := some (List.replicate 6 0)
            total_energy := some 0
            potential_energy := some 0
            kinetic_energy := some 0
            temperature := some 0
            unitcell := List.replicate 9 0
            pos := []
            velocities := some []
            status := none
            step := none } := by decide

/-- C5 amended: construction from an integer atom count fails with
`ValueError` exactly for negative arguments; every nonnegative argument
(zero included) yields the zero-initialized snapshot whose positions and
velocities hold exactly `atom_count` rows. -/
theorem C5_thm (n m : Int) (hn : n < 0) (hm : 0 ≤ m) :
    Timestep.make (.intArg n) = .error (.valueErr "negative dimensions are not allowed") ∧
    Timestep.make (.intArg m) =
      .ok { frame := 0
            numatoms := m
            time := some 0
            pressure := some 0
            pressure_tensor := some (List.replicate 6 0)
            total_energy := some 0
            potential_energy := some 0
            kinetic_energy := some 0
            temperature := some 0
            unitcell := List.replicate 9 0
            pos := List.replicate m.toNat (List.replicate 3 0)
            velocities := some (List.replicate m.toNat (List.replicate 3 0))
            status := none
            step := none } ∧
    (List.replicate m.toNat (List.replicate 3 0) : List (List Int)).length = m.toNat := by
  refine ⟨?_, ?_, by simp⟩
  · simp only [Timestep.make, if_pos hn]
  · simp only [Timestep.make, if_neg (by omega : ¬ m < 0)]

/-- C5 witness: the amended statement at the concrete arguments -1 and
2. -/
theorem C5_thm_witness :
    ((-1 : Int) < 0 ∧ (0 : Int) ≤ 2) ∧
    (Timestep.make (.intArg (-1)) = .error (.valueErr "negative dimensions are not allowed") ∧
     Timestep.make (.intArg 2) =
      .ok { frame := 0
            numatoms := 2
            time := some 0
            pressure := some 0
            pressure_tensor := some (List.replicate 6 0)
            total_energy := some 0
            potential_energy := some 0
            kinetic_energy := some 0
            temperature := some 0
            unitcell := List.replicate 9 0
            pos := List.replicate 2 (List.replicate 3 0)
            velocities := some (List.replicate 2 (List.replicate 3 0))
            status := none
            step := none } ∧
     (List.replicate (2 : Int).toNat (List.replicate 3 0) : List (List Int)).length = (2 : Int).toNat) :=
  ⟨⟨by decide, by decide⟩, C5_thm (-1) 2 (by decide) (by decide)⟩

/-- C4 counterexample: constructing from the well-formed 1-by-3 array
`[[5,6,7]]` succeeds, but its velocities and time are left unset (the
ndarray branch never assigns them), not at zeroed defaults as the claim
states. -/
theorem C4_cex :
    (Timestep.make (.arrArg ⟨[1, 3], [5, 6, 7]⟩)).map Timestep.velocities = .ok none ∧
    (Timestep.make (.arrArg ⟨[1, 3], [5, 6, 7]⟩)).map Timestep.time = .ok none ∧
    (Timestep.make (.arrArg ⟨[1, 3], [5, 6, 7]⟩)).map Timestep.pos = .ok [[5, 6, 7]] := by
  decide

/-- C4 amended: constructing from a raw array fails with `ValueError` when
the array is not 2-dimensional; for every N-by-3 array it succeeds with
`numatoms = N` and the contents copied row-wise into the positions, but
the velocity and scalar attributes are left unset (only the unit cell is
zeroed), not at zeroed defaults. -/
theorem C4_thm (a : NDArray) (hne : a.shape.length ≠ 2) (N : Nat) (d : List Int) :
    Timestep.make (.arrArg a) = .error (.valueErr "numpy array can only have 2 dimensions") ∧
    Timestep.make (.arrArg ⟨[N, 3], d⟩) =
      .ok { frame := 0
            numatoms := (N : Int)
            time := none
            pressure := none
            pressure_tensor := none
            total_energy := none
            potential_energy := none
            kinetic_energy := none
            temperature := none
            unitcell := List.replicate 9 0
            pos := toRows 3 N d
            velocities := none
            status := none
            step := none } := by
  constructor
  · simp only [Timestep.make, if_pos hne]
  · simp [Timestep.make]

/-- C4 witness: the amended statement at a 1-dimensional array and the
concrete 1-by-3 array `[[5,6,7]]`. -/
theorem C4_thm_witness :
    (NDArray.mk [3] [5, 6, 7]).shape.length ≠ 2 ∧
    (Timestep.make (.arrArg ⟨[3], [5, 6, 7]⟩) =
       .error (.valueErr "numpy array can only have 2 dimensions") ∧
     Timestep.make (.arrArg ⟨[1, 3], [5, 6, 7]⟩) =
      .ok { frame := 0
            numatoms := (1 : Nat)
            time := none
            pressure := none
            pressure_tensor := none
            total_energy := none
            potential_energy := none
            kinetic_energy := none
            temperature := none
            unitcell := List.replicate 9 0
            pos := toRows 3 1 [5, 6, 7]
            velocities := none
            status := none
            step := none }) :=
  ⟨by decide, C4_thm ⟨[3], [5, 6, 7]⟩ (by decide) 1 [5, 6, 7]⟩

/-- C9: `open_trajectory` fails with `AlreadyOpen` when a stream handle is
already held, fails with `NotFound` when the path does not exist, and on
success opens at position 0 and resets the snapshot's frame counter and
time to 0. -/
theorem C9_thm (r1 r2 r3 : Reader) (p : Nat)
    (h1 : r1.trzfile = some p)
    (h2 : r2.trzfile = none) (h2e : r2.fileExists = false)
    (h3 : r3.trzfile = none) (h3e : r3.fileExists = true) :
    Reader.open_trajectory r1 = (.error .already, r1) ∧
    Reader.open_trajectory r2 = (.error .notfound, r2) ∧
    ((Reader.open_trajectory r3).1 = .ok () ∧
     (Reader.open_trajectory r3).2.trzfile = some 0 ∧
     (Reader.open_trajectory r3).2.ts.frame = 0 ∧
     (Reader.open_trajectory r3).2.ts.time = some 0) := by
  refine ⟨?_, ?_, ?_⟩
  · simp [Reader.open_trajectory, h1]
  · simp [Reader.open_trajectory, h2, h2e]
  · simp [Reader.open_trajectory, h3, h3e]

/-- C9 witness: the three open outcomes at concrete readers over the
two-frame fixture file. -/
theorem C9_thm_witness :
    ((sampleReader tfBytes true (some 100)).trzfile = some 100 ∧
     (sampleReader [] false none).trzfile = none ∧
     (sampleReader [] false none).fileExists = false ∧
     (sampleReader tfBytes true none).trzfile = none ∧
     (sampleReader tfBytes true none).fileExists = true) ∧
    (Reader.open_trajectory (sampleReader tfBytes true (some 100)) =
       (.error .already, sampleReader tfBytes true (some 100)) ∧
     Reader.open_trajectory (sampleReader [] false none) =
       (.error .notfound, sampleReader [] false none) ∧
     ((Reader.open_trajectory (sampleReader tfBytes true none)).1 = .ok () ∧
      (Reader.open_trajectory (sampleReader tfBytes true none)).2.trzfile = some 0 ∧
      (Reader.open_trajectory (sampleReader tfBytes true none)).2.ts.frame = 0 ∧
      (Reader.open_trajectory (sampleReader tfBytes true none)).2.ts.time = some 0)) :=
  ⟨⟨rfl, rfl, rfl, rfl, rfl⟩,
   C9_thm (sampleReader tfBytes true (some 100)) (sampleReader [] false none)
     (sampleReader tfBytes true none) 100 rfl rfl rfl rfl rfl⟩

end TRZ
